import Mathlib

/-!
Verification development for the StravaViz activity synchronization service
(sync_service.py).

Modelling conventions, shared by every definition below:

* Datetimes are modelled as integer epoch seconds. The source stores ISO
  datetime strings and compares them with SQL string comparison; for strings
  produced by datetime.isoformat in one timezone this order agrees with
  chronological order, so the model uses the timeline directly. Conversions
  such as datetime.fromisoformat, datetime.isoformat and int(dt.timestamp())
  become the identity at this abstraction, and dates (midnights) are the
  corresponding midnight epochs.
* SQL REAL values (distances, speeds, coordinates) are modelled as rationals.
* A Python dict fetched from the API becomes a structure of Option fields;
  dict.get with a default becomes Option.getD.
* Tables become lists of row structures. INSERT appends, UPDATE maps over the
  rows satisfying the WHERE clause. SQL equality against NULL never holds.
* Network calls are oracles passed in as explicit arguments.
-/

namespace StravaViz

/-- Epoch seconds; the model of a datetime value. -/
abbrev DateTime := Int

/-- An activity record as returned by the provider's API, i.e. the Python
dict read by save_activities. Every field that the code accesses with
dict.get is optional here. start_latlng is a list of coordinates
(the code inspects its length before indexing). -/
structure ActivityJson where
  id : Option Int
  name : Option String
  type : Option String
  start_date : Option DateTime
  distance : Option Rat
  moving_time : Option Int
  elapsed_time : Option Int
  total_elevation_gain : Option Rat
  average_speed : Option Rat
  max_speed : Option Rat
  average_heartrate : Option Rat
  max_heartrate : Option Rat
  calories : Option Rat
  kudos_count : Option Int
  visibility : Option String
  start_latlng : Option (List Rat)
  deriving DecidableEq, Repr

/-- A row of the activities table (schema of migration 001 plus the
segments_fetched column of migration 007, INTEGER DEFAULT 0, modelled as a
Bool). user_id and activity_id are NOT NULL in the schema. -/
structure ActivityRow where
  user_id : Int
  activity_id : Int
  name : String
  type : String
  start_date : DateTime
  distance : Rat
  moving_time : Int
  elapsed_time : Int
  total_elevation_gain : Rat
  average_speed : Rat
  max_speed : Rat
  average_heartrate : Option Rat
  max_heartrate : Option Rat
  calories : Option Rat
  kudos_count : Int
  visibility : String
  start_lat : Option Rat
  start_lng : Option Rat
  segments_fetched : Bool
  deriving DecidableEq, Repr

/-- start_lat extraction of save_activities: the first coordinate when
start_latlng is a list of length at least two, otherwise NULL. -/
def extractStartLat (a : ActivityJson) : Option Rat :=
  match a.start_latlng with
  | some l => if 2 ≤ l.length then l[0]? else none
  | none => none

/-- start_lng extraction of save_activities: the second coordinate when
start_latlng is a list of length at least two, otherwise NULL. -/
def extractStartLng (a : ActivityJson) : Option Rat :=
  match a.start_latlng with
  | some l => if 2 ≤ l.length then l[1]? else none
  | none => none

/-- The full row inserted by save_activities for a record not yet stored,
with the defaults of the source's dict.get calls. The source's default for a
missing start_date is the empty string, which the epoch model renders as 0.
segments_fetched is not named by the INSERT, so the column default 0
applies. -/
def extractRow (user_id : Int) (a : ActivityJson) (aid : Int) : ActivityRow :=
  { user_id := user_id
    activity_id := aid
    name := a.name.getD ""
    type := a.type.getD ""
    start_date := a.start_date.getD 0
    distance := a.distance.getD 0
    moving_time := a.moving_time.getD 0
    elapsed_time := a.elapsed_time.getD 0
    total_elevation_gain := a.total_elevation_gain.getD 0
    average_speed := a.average_speed.getD 0
    max_speed := a.max_speed.getD 0
    average_heartrate := a.average_heartrate
    max_heartrate := a.max_heartrate
    calories := a.calories
    kudos_count := a.kudos_count.getD 0
    visibility := a.visibility.getD "everyone"
    start_lat := extractStartLat a
    start_lng := extractStartLng a
    segments_fetched := false }

/-- The UPDATE statement of save_activities applied to one stored row: on
the rows matching the WHERE clause it sets kudos_count and visibility and
COALESCEs the coordinates (keep the stored value when the incoming one is
NULL); other rows are untouched. -/
def rowUpdate (uid aid : Int) (a : ActivityJson) (r : ActivityRow) : ActivityRow :=
  if r.user_id == uid && r.activity_id == aid then
    { r with
      kudos_count := a.kudos_count.getD 0
      visibility := a.visibility.getD "everyone"
      start_lat := (extractStartLat a).or r.start_lat
      start_lng := (extractStartLng a).or r.start_lng }
  else r

/-- The SELECT id FROM activities WHERE user_id = ? AND activity_id = ?
existence check of save_activities. -/
def keyPresent (uid aid : Int) (db : List ActivityRow) : Bool :=
  db.any fun r => r.user_id == uid && r.activity_id == aid

/-- One iteration of the save_activities loop on the state
(activities table, new_count). A record with no id finds no stored row (SQL
equality against NULL matches nothing) and its INSERT violates the NOT NULL
constraint on activity_id, so the per-record exception handler skips it:
state and counter are unchanged. Otherwise an existing (user_id,
activity_id) row is updated without incrementing the counter, and a missing
one is inserted with the counter incremented. -/
def processActivity (uid : Int) (s : List ActivityRow × Int) (a : ActivityJson) :
    List ActivityRow × Int :=
  match a.id with
  | none => s
  | some aid =>
    if keyPresent uid aid s.1 then
      (s.1.map (rowUpdate uid aid a), s.2)
    else
      (s.1 ++ [extractRow uid a aid], s.2 + 1)

/-- save_activities: fold the per-record step over the incoming list,
starting from the stored table and a zero counter. (The source's early
return on an empty input list coincides with the empty fold.) -/
def save_activities (uid : Int) (acts : List ActivityJson) (db : List ActivityRow) :
    List ActivityRow × Int :=
  acts.foldl (processActivity uid) (db, 0)

/-- The action of one incoming record on one stored row: the UPDATE when the
record has an id, the identity otherwise. -/
def recRowUpdate (uid : Int) (a : ActivityJson) (r : ActivityRow) : ActivityRow :=
  match a.id with
  | none => r
  | some aid => rowUpdate uid aid a r

/-- The action of a whole incoming list on one stored row, applied in input
order. -/
def rowUpdAll (uid : Int) (acts : List ActivityJson) (r : ActivityRow) : ActivityRow :=
  acts.foldl (fun r a => recRowUpdate uid a r) r

/-- The cumulative effect of a sequence of updates on the mutable fields of
one stored row: the last (kudos_count, visibility) pair written, if any, and
the coordinate values accumulated through COALESCE. -/
structure UpdEffect where
  last : Option (Int × String)
  latAcc : Option Rat
  lngAcc : Option Rat
  deriving DecidableEq, Repr

def emptyEffect : UpdEffect := ⟨none, none, none⟩

/-- Extend a cumulative effect by one incoming record, for rows whose
activity_id is k. -/
def effectStep (k : Int) (e : UpdEffect) (a : ActivityJson) : UpdEffect :=
  match a.id with
  | none => e
  | some aid =>
    if aid == k then
      { last := some (a.kudos_count.getD 0, a.visibility.getD "everyone")
        latAcc := (extractStartLat a).or e.latAcc
        lngAcc := (extractStartLng a).or e.lngAcc }
    else e

def effectOf (k : Int) (acts : List ActivityJson) : UpdEffect :=
  acts.foldl (effectStep k) emptyEffect

/-- Apply a cumulative effect to a stored row. -/
def applyEffect (e : UpdEffect) (r : ActivityRow) : ActivityRow :=
  { r with
    kudos_count := match e.last with | some p => p.1 | none => r.kudos_count
    visibility := match e.last with | some p => p.2 | none => r.visibility
    start_lat := e.latAcc.or r.start_lat
    start_lng := e.lngAcc.or r.start_lng }

theorem applyEffect_user_id (e : UpdEffect) (r : ActivityRow) :
    (applyEffect e r).user_id = r.user_id := rfl

theorem applyEffect_activity_id (e : UpdEffect) (r : ActivityRow) :
    (applyEffect e r).activity_id = r.activity_id := rfl

theorem applyEffect_empty (r : ActivityRow) : applyEffect emptyEffect r = r := rfl

theorem rowUpdate_user_id (uid aid : Int) (a : ActivityJson) (r : ActivityRow) :
    (rowUpdate uid aid a r).user_id = r.user_id := by
  unfold rowUpdate; split <;> rfl

theorem rowUpdate_activity_id (uid aid : Int) (a : ActivityJson) (r : ActivityRow) :
    (rowUpdate uid aid a r).activity_id = r.activity_id := by
  unfold rowUpdate; split <;> rfl

/-- One update step, seen through the effect abstraction: updating an
already-affected row extends the effect. -/
theorem recRowUpdate_applyEffect (uid : Int) (a : ActivityJson) (e : UpdEffect)
    (r : ActivityRow) (hu : r.user_id = uid) :
    recRowUpdate uid a (applyEffect e r) = applyEffect (effectStep r.activity_id e a) r := by
  unfold recRowUpdate effectStep
  cases hid : a.id with
  | none => rfl
  | some aid =>
    unfold rowUpdate
    rw [applyEffect_user_id, applyEffect_activity_id, hu]
    by_cases hk : aid = r.activity_id
    · subst hk
      simp [applyEffect, Option.or_assoc, hu]
    · have hk1 : (r.activity_id == aid) = false := beq_eq_false_iff_ne.mpr (Ne.symm hk)
      have hk2 : (aid == r.activity_id) = false := beq_eq_false_iff_ne.mpr hk
      simp [hk1, hk2, applyEffect]

/-- The whole-list action, seen through the effect abstraction. -/
theorem rowUpdAll_applyEffect (uid : Int) (acts : List ActivityJson) :
    ∀ (e : UpdEffect) (r : ActivityRow), r.user_id = uid →
      rowUpdAll uid acts (applyEffect e r)
        = applyEffect (acts.foldl (effectStep r.activity_id) e) r := by
  induction acts with
  | nil => intro e r _; rfl
  | cons a t ih =>
    intro e r hu
    have h1 : rowUpdAll uid (a :: t) (applyEffect e r)
        = rowUpdAll uid t (recRowUpdate uid a (applyEffect e r)) := rfl
    rw [h1, recRowUpdate_applyEffect uid a e r hu, ih _ r hu]
    rfl

/-- The whole-list action is the application of the cumulative effect. -/
theorem rowUpdAll_eq_applyEffect (uid : Int) (acts : List ActivityJson)
    (r : ActivityRow) (hu : r.user_id = uid) :
    rowUpdAll uid acts r = applyEffect (effectOf r.activity_id acts) r := by
  have := rowUpdAll_applyEffect uid acts emptyEffect r hu
  rwa [applyEffect_empty] at this

/-- Rows of another user are never touched by the per-row action. -/
theorem rowUpdAll_of_ne_user (uid : Int) (acts : List ActivityJson) :
    ∀ (r : ActivityRow), r.user_id ≠ uid → rowUpdAll uid acts r = r := by
  induction acts with
  | nil => intro r _; rfl
  | cons a t ih =>
    intro r hu
    have hstep : recRowUpdate uid a r = r := by
      unfold recRowUpdate rowUpdate
      cases a.id with
      | none => rfl
      | some aid =>
        have : (r.user_id == uid) = false := by simp [beq_iff_eq, hu]
        simp [this]
    have h1 : rowUpdAll uid (a :: t) r = rowUpdAll uid t (recRowUpdate uid a r) := rfl
    rw [h1, hstep, ih r hu]

theorem option_or_absorb {α : Type} (o x : Option α) : o.or (o.or x) = o.or x := by
  cases o <;> rfl

theorem option_or_self {α : Type} (o : Option α) : o.or o = o := by
  cases o <;> rfl

/-- Applying the same cumulative effect twice equals applying it once. -/
theorem applyEffect_idem (e : UpdEffect) (r : ActivityRow) :
    applyEffect e (applyEffect e r) = applyEffect e r := by
  unfold applyEffect
  cases e.last <;> simp [option_or_absorb]

theorem rowUpdAll_cons (uid : Int) (a : ActivityJson) (t : List ActivityJson)
    (r : ActivityRow) :
    rowUpdAll uid (a :: t) r = rowUpdAll uid t (recRowUpdate uid a r) := rfl

theorem recRowUpdate_of_id_none (uid : Int) (a : ActivityJson) (r : ActivityRow)
    (h : a.id = none) : recRowUpdate uid a r = r := by
  unfold recRowUpdate; rw [h]

theorem keyPresent_map_rowUpdate (uid k aid : Int) (b : ActivityJson)
    (db : List ActivityRow) :
    keyPresent uid aid (db.map (rowUpdate uid k b)) = keyPresent uid aid db := by
  unfold keyPresent
  induction db with
  | nil => rfl
  | cons r t ih =>
    simp only [List.map_cons, List.any_cons, rowUpdate_user_id, rowUpdate_activity_id, ih]

theorem list_map_id_of_fix {α : Type} (l : List α) (f : α → α) (h : ∀ x ∈ l, f x = x) :
    l.map f = l := by
  induction l with
  | nil => rfl
  | cons x t ih =>
    rw [List.map_cons, h x (List.mem_cons_self x t),
      ih fun y hy => h y (List.mem_cons_of_mem x hy)]

/-- When every incoming record's key is already stored, the save_activities
loop is a pure UPDATE pass: it maps the per-row action over the table and
leaves the counter alone. -/
theorem save_loop_all_present (uid : Int) :
    ∀ (acts : List ActivityJson) (db : List ActivityRow) (c : Int),
      (∀ a ∈ acts, ∀ aid, a.id = some aid → keyPresent uid aid db = true) →
      acts.foldl (processActivity uid) (db, c) = (db.map (rowUpdAll uid acts), c) := by
  intro acts
  induction acts with
  | nil =>
    intro db c _
    have hmap : db.map (rowUpdAll uid []) = db := list_map_id_of_fix db _ fun _ _ => rfl
    rw [List.foldl_nil, hmap]
  | cons a t ih =>
    intro db c hpres
    cases hid : a.id with
    | none =>
      have hstep : processActivity uid (db, c) a = (db, c) := by
        unfold processActivity; rw [hid]
      rw [List.foldl_cons, hstep, ih db c fun b hb => hpres b (List.mem_cons_of_mem a hb)]
      have hfun : rowUpdAll uid (a :: t) = rowUpdAll uid t := by
        funext r; rw [rowUpdAll_cons, recRowUpdate_of_id_none uid a r hid]
      rw [hfun]
    | some aid =>
      have hp := hpres a (List.mem_cons_self a t) aid hid
      have hstep : processActivity uid (db, c) a = (db.map (rowUpdate uid aid a), c) := by
        unfold processActivity; rw [hid]; simp [hp]
      have hpres2 : ∀ b ∈ t, ∀ k, b.id = some k →
          keyPresent uid k (db.map (rowUpdate uid aid a)) = true := by
        intro b hb k hk
        rw [keyPresent_map_rowUpdate]
        exact hpres b (List.mem_cons_of_mem a hb) k hk
      rw [List.foldl_cons, hstep, ih _ c hpres2, List.map_map]
      have hfun : rowUpdAll uid t ∘ rowUpdate uid aid a = rowUpdAll uid (a :: t) := by
        funext r
        rw [Function.comp_apply, rowUpdAll_cons]
        unfold recRowUpdate; rw [hid]
      rw [hfun]

theorem effectStep_of_ne (k : Int) (e : UpdEffect) (a : ActivityJson)
    (h : a.id ≠ some k) : effectStep k e a = e := by
  unfold effectStep
  cases hid : a.id with
  | none => rfl
  | some aid =>
    have : (aid == k) = false := by
      refine beq_eq_false_iff_ne.mpr fun he => h ?_
      rw [hid, he]
    simp [this]

theorem foldl_effectStep_const (k : Int) :
    ∀ (acts : List ActivityJson) (e : UpdEffect), (∀ a ∈ acts, a.id ≠ some k) →
      acts.foldl (effectStep k) e = e := by
  intro acts
  induction acts with
  | nil => intro e _; rfl
  | cons a t ih =>
    intro e h
    rw [List.foldl_cons, effectStep_of_ne k e a (h a (List.mem_cons_self a t)),
      ih e fun b hb => h b (List.mem_cons_of_mem a hb)]

/-- A freshly inserted row already carries the record's own effect. -/
theorem applyEffect_extractRow (uid aid : Int) (a : ActivityJson) (h : a.id = some aid) :
    applyEffect (effectStep aid emptyEffect a) (extractRow uid a aid)
      = extractRow uid a aid := by
  unfold effectStep
  rw [h]
  simp [applyEffect, extractRow, emptyEffect, option_or_self]

/-- Saved-state invariant: after a save_activities pass every stored row has
absorbed the cumulative effect of the incoming list, and a key is stored
afterwards exactly when it was stored before or occurs in the input. -/
theorem save_invariant (uid : Int) (acts : List ActivityJson) (db : List ActivityRow) :
    (∀ r ∈ (save_activities uid acts db).1, r.user_id = uid →
        applyEffect (effectOf r.activity_id acts) r = r) ∧
    (∀ aid : Int, keyPresent uid aid (save_activities uid acts db).1 = true ↔
        (keyPresent uid aid db = true ∨ ∃ a ∈ acts, a.id = some aid)) := by
  induction acts using List.reverseRecOn with
  | nil =>
    constructor
    · intro r _ _
      exact applyEffect_empty r
    · intro aid
      simp [save_activities]
  | append_singleton l a ih =>
    obtain ⟨ihabs, ihpres⟩ := ih
    have hsplit : save_activities uid (l ++ [a]) db
        = processActivity uid (save_activities uid l db) a := by
      unfold save_activities
      rw [List.foldl_append, List.foldl_cons, List.foldl_nil]
    have heff : ∀ k : Int, effectOf k (l ++ [a]) = effectStep k (effectOf k l) a := by
      intro k
      unfold effectOf
      rw [List.foldl_append, List.foldl_cons, List.foldl_nil]
    cases hid : a.id with
    | none =>
      have hstate : (save_activities uid (l ++ [a]) db).1 = (save_activities uid l db).1 := by
        rw [hsplit]; unfold processActivity; rw [hid]
      constructor
      · intro r hr hu
        rw [heff, effectStep_of_ne _ _ a (by rw [hid]; exact fun h => Option.noConfusion h)]
        exact ihabs r (hstate ▸ hr) hu
      · intro aid
        rw [hstate, ihpres aid]
        constructor
        · rintro (h | ⟨b, hb, hbid⟩)
          · exact Or.inl h
          · exact Or.inr ⟨b, List.mem_append_left _ hb, hbid⟩
        · rintro (h | ⟨b, hb, hbid⟩)
          · exact Or.inl h
          · rcases List.mem_append.mp hb with hb | hb
            · exact Or.inr ⟨b, hb, hbid⟩
            · rw [List.mem_singleton.mp hb] at hbid
              rw [hid] at hbid
              exact Option.noConfusion hbid
    | some aid =>
      by_cases hp : keyPresent uid aid (save_activities uid l db).1 = true
      · -- the record's key is already stored: UPDATE branch
        have hstate : (save_activities uid (l ++ [a]) db).1
            = (save_activities uid l db).1.map (rowUpdate uid aid a) := by
          rw [hsplit]; unfold processActivity; rw [hid]; simp [hp]
        constructor
        · intro r' hr' hu'
          rw [hstate] at hr'
          obtain ⟨r, hr, hrw⟩ := List.mem_map.mp hr'
          have hu : r.user_id = uid := by
            rw [← rowUpdate_user_id uid aid a r, hrw]; exact hu'
          have habs := ihabs r hr hu
          have h1 : r' = applyEffect (effectStep r.activity_id (effectOf r.activity_id l) a) r := by
            rw [← recRowUpdate_applyEffect uid a _ r hu, habs, ← hrw]
            unfold recRowUpdate; rw [hid]
          have hact : r'.activity_id = r.activity_id := by
            rw [← hrw, rowUpdate_activity_id]
          rw [heff, hact, h1, applyEffect_idem]
        · intro x
          rw [hstate, keyPresent_map_rowUpdate, ihpres x]
          constructor
          · rintro (h | ⟨b, hb, hbid⟩)
            · exact Or.inl h
            · exact Or.inr ⟨b, List.mem_append_left _ hb, hbid⟩
          · rintro (h | ⟨b, hb, hbid⟩)
            · exact Or.inl h
            · rcases List.mem_append.mp hb with hb | hb
              · exact Or.inr ⟨b, hb, hbid⟩
              · rw [List.mem_singleton.mp hb] at hbid
                rw [hid] at hbid
                have hx : x = aid := (Option.some_inj.mp hbid).symm
                subst hx
                exact (ihpres x).mp hp
      · -- new key: INSERT branch
        have hstate : (save_activities uid (l ++ [a]) db).1
            = (save_activities uid l db).1 ++ [extractRow uid a aid] := by
          rw [hsplit]; unfold processActivity; rw [hid]
          simp [hp]
        have hnol : ∀ b ∈ l, b.id ≠ some aid := by
          intro b hb hbid
          exact hp ((ihpres aid).mpr (Or.inr ⟨b, hb, hbid⟩))
        constructor
        · intro r' hr' hu'
          rw [hstate] at hr'
          rcases List.mem_append.mp hr' with hr | hr
          · by_cases hk : r'.activity_id = aid
            · exfalso
              apply hp
              unfold keyPresent
              rw [List.any_eq_true]
              exact ⟨r', hr, by simp [hu', hk]⟩
            · have hne : a.id ≠ some r'.activity_id := by
                rw [hid]
                intro h
                exact hk (Option.some_inj.mp h).symm
              rw [heff, effectStep_of_ne _ _ a hne]
              exact ihabs r' hr hu'
          · rw [List.mem_singleton.mp hr]
            have : effectOf aid l = emptyEffect := foldl_effectStep_const aid l emptyEffect hnol
            rw [heff]
            have hact : (extractRow uid a aid).activity_id = aid := rfl
            rw [hact, this]
            exact applyEffect_extractRow uid aid a hid
        · intro x
          rw [hstate]
          unfold keyPresent
          rw [List.any_append]
          have hone : (List.any [extractRow uid a aid] fun r =>
              r.user_id == uid && r.activity_id == x) = (aid == x) := by
            simp [extractRow]
          rw [hone]
          rw [Bool.or_eq_true]
          have hpre : (List.any (save_activities uid l db).1 fun r =>
              r.user_id == uid && r.activity_id == x) = keyPresent uid x (save_activities uid l db).1 := rfl
          rw [hpre, ihpres x]
          constructor
          · rintro ((h | ⟨b, hb, hbid⟩) | h)
            · exact Or.inl h
            · exact Or.inr ⟨b, List.mem_append_left _ hb, hbid⟩
            · refine Or.inr ⟨a, List.mem_append_right _ (List.mem_singleton_self a), ?_⟩
              rw [hid, beq_iff_eq.mp h]
          · rintro (h | ⟨b, hb, hbid⟩)
            · exact Or.inl (Or.inl h)
            · rcases List.mem_append.mp hb with hb | hb
              · exact Or.inl (Or.inr ⟨b, hb, hbid⟩)
              · rw [List.mem_singleton.mp hb] at hbid
                rw [hid] at hbid
                exact Or.inr (beq_iff_eq.mpr (Option.some_inj.mp hbid))

/-- C2: calling save_activities a second time with the same activity list
leaves the activities table exactly as after the first call and reports zero
new activities, for any prior table contents, any user id and any input list
— duplicates of already-stored activities included. -/
theorem save_activities_idempotent (uid : Int) (acts : List ActivityJson)
    (db : List ActivityRow) :
    save_activities uid acts (save_activities uid acts db).1
      = ((save_activities uid acts db).1, 0) := by
  obtain ⟨habs, hpres⟩ := save_invariant uid acts db
  have hall : ∀ a ∈ acts, ∀ aid, a.id = some aid →
      keyPresent uid aid (save_activities uid acts db).1 = true := by
    intro a ha aid hid
    exact (hpres aid).mpr (Or.inr ⟨a, ha, hid⟩)
  have hloop := save_loop_all_present uid acts (save_activities uid acts db).1 0 hall
  have hfix : ∀ r ∈ (save_activities uid acts db).1, rowUpdAll uid acts r = r := by
    intro r hr
    by_cases hu : r.user_id = uid
    · rw [rowUpdAll_eq_applyEffect uid acts r hu]
      exact habs r hr hu
    · exact rowUpdAll_of_ne_user uid acts r hu
  have hmap := list_map_id_of_fix _ _ hfix
  show acts.foldl (processActivity uid) ((save_activities uid acts db).1, 0)
      = ((save_activities uid acts db).1, 0)
  rw [hloop, hmap]

/-- C3: for an incoming record whose (user_id, activity_id) key is already
stored, the save_activities step rewrites only kudos_count, visibility and
the two start coordinates — the coordinates with keep-the-stored-value
semantics when the incoming one is absent — on the rows with that key,
leaves every other field of those rows and every other row untouched, and
does not increment the new-activity counter. -/
theorem save_update_frame (uid : Int) (a : ActivityJson) (aid : Int)
    (db : List ActivityRow) (c : Int) (hid : a.id = some aid)
    (hp : keyPresent uid aid db = true) :
    processActivity uid (db, c) a
      = (db.map fun r =>
          if r.user_id = uid ∧ r.activity_id = aid then
            { r with
              kudos_count := a.kudos_count.getD 0
              visibility := a.visibility.getD "everyone"
              start_lat := (extractStartLat a).or r.start_lat
              start_lng := (extractStartLng a).or r.start_lng }
          else r, c) := by
  unfold processActivity
  rw [hid]
  simp only [hp, if_true]
  congr 1
  apply List.map_congr_left
  intro r _
  unfold rowUpdate
  by_cases h1 : r.user_id = uid
  · by_cases h2 : r.activity_id = aid
    · simp [h1, h2]
    · simp [h1, h2]
  · simp [h1]

/-- A stored row used to instantiate the frame theorem. -/
def wRow : ActivityRow :=
  { user_id := 1, activity_id := 7, name := "Morning Run", type := "Run",
    start_date := 100, distance := 5000, moving_time := 1800, elapsed_time := 1900,
    total_elevation_gain := 10, average_speed := 3, max_speed := 5,
    average_heartrate := some 140, max_heartrate := some 160, calories := some 300,
    kudos_count := 2, visibility := "everyone", start_lat := some 1,
    start_lng := some 2, segments_fetched := true }

/-- An incoming record with the same key as wRow but different values in
every field, and absent coordinates. -/
def wJson : ActivityJson :=
  { id := some 7, name := some "Evening Ride", type := some "Ride",
    start_date := some 999, distance := some 1, moving_time := some 1,
    elapsed_time := some 1, total_elevation_gain := some 1, average_speed := some 1,
    max_speed := some 1, average_heartrate := none, max_heartrate := none,
    calories := none, kudos_count := some 9, visibility := some "only_me",
    start_latlng := none }

/-- Witness for the frame theorem: on a concrete stored row the step changes
kudos_count and visibility, keeps the stored coordinates (incoming ones are
absent), keeps all other fields, and keeps the counter. -/
theorem save_update_frame_witness :
    processActivity 1 ([wRow], 5) wJson
      = ([{ wRow with kudos_count := 9, visibility := "only_me" }], 5) := by
  have h := save_update_frame 1 wJson 7 [wRow] 5 rfl (by decide)
  rw [h]
  decide

/-- A row of the users table (the fields the sync code reads). -/
structure User where
  id : Int
  firstname : String
  lastname : String
  access_token : String
  refresh_token : String
  token_expires_at : Int
  privacy_level : String
  is_active : Bool
  deriving DecidableEq, Repr

/-- The provider's response to the token-refresh POST. -/
structure TokenResponse where
  status : Int
  access_token : String
  refresh_token : String
  expires_at : Int
  deriving DecidableEq, Repr

/-- Externally visible side effects of refresh_user_token_if_needed: the
POST to the token endpoint and the UPDATE of the users row. -/
inductive RefreshEffect
  | tokenEndpointCall
  | userTokenWrite
  deriving DecidableEq, Repr

/-- refresh_user_token_if_needed. now is int(time.time()) and the token
endpoint's response is an oracle argument. When the stored expiry is more
than 300 seconds past now the stored user is returned as is — no network
call, no write. Otherwise the endpoint is called; a status other than 200
yields (None, message naming the status) with nothing written; a 200 status
persists the new credential triple and returns the user re-read from the
users table, i.e. the user with exactly those three fields replaced. -/
def refresh_user_token_if_needed (now : Int) (user : User) (resp : TokenResponse) :
    (Option User × Option String) × List RefreshEffect :=
  if user.token_expires_at > now + 300 then
    ((some user, none), [])
  else if resp.status ≠ 200 then
    ((none, some ("Token refresh failed: " ++ toString resp.status)),
      [RefreshEffect.tokenEndpointCall])
  else
    ((some { user with
        access_token := resp.access_token
        refresh_token := resp.refresh_token
        token_expires_at := resp.expires_at }, none),
      [RefreshEffect.tokenEndpointCall, RefreshEffect.userTokenWrite])

/-- get_last_activity_date: MAX(start_date) over the user's stored
activities, None when the user has none. In the epoch model the SQL MAX and
the fromisoformat parse collapse to the integer maximum (the parse-failure
fallback of the source is unreachable for dates the model can express). -/
def get_last_activity_date (uid : Int) (db : List ActivityRow) : Option DateTime :=
  match (db.filter fun r => r.user_id == uid).map (fun r => r.start_date) with
  | [] => none
  | d :: ds => some (ds.foldl max d)

/-- The outcome of one page request inside fetch_activities_since: an HTTP
response carrying a status and a JSON body, a requests timeout, or any other
exception with its message. -/
inductive PageResult
  | http (status : Int) (body : List ActivityJson)
  | timeout
  | failure (msg : String)

/-- The query parameters of the outbound activity-list request: per_page,
page, and the optional after watermark sent as an integer epoch
(int(after_date.timestamp()), the identity in the epoch model). -/
structure FetchParams where
  per_page : Int
  page : Nat
  after : Option Int
  deriving DecidableEq, Repr

/-- The params dict fetch_activities_since builds before its loop: page 1,
the given page size, and after only when a watermark date was supplied. -/
def initFetchParams (per_page : Int) (after_date : Option DateTime) : FetchParams :=
  { per_page := per_page, page := 1, after := after_date }

/-- The while loop of fetch_activities_since, with the remaining page budget
(10 at the start, the max_pages cap) as fuel. Per iteration: HTTP 429, 401
and any other non-200 status return (None, classified error) at once; a
timeout breaks out and the collected activities are returned with no error;
an empty page or a short page ends pagination normally. -/
def fetchLoop (pages : Nat → PageResult) (per_page : Int)
    (acc : List ActivityJson) (page : Nat) :
    Nat → Option (List ActivityJson) × Option String
  | 0 => (some acc, none)
  | fuel + 1 =>
    match pages page with
    | PageResult.timeout => (some acc, none)
    | PageResult.failure msg => (none, some msg)
    | PageResult.http s body =>
      if s = 429 then
        (none, some "Strava API rate limit exceeded. Will retry on next sync.")
      else if s = 401 then
        (none, some "Authentication failed. Token may be invalid.")
      else if s ≠ 200 then
        (none, some ("API error: " ++ toString s))
      else if body = [] then
        (some acc, none)
      else if (body.length : Int) < per_page then
        (some (acc ++ body), none)
      else
        fetchLoop pages per_page (acc ++ body) (page + 1) fuel

/-- fetch_activities_since: build the request parameters from the optional
watermark and run the pagination loop from page 1 under the max_pages = 10
cap. -/
def fetch_activities_since (pages : Nat → PageResult) (after_date : Option DateTime)
    (per_page : Int) : Option (List ActivityJson) × Option String :=
  let params := initFetchParams per_page after_date
  fetchLoop pages params.per_page [] params.page 10

/-- The zone-seconds dict produced by fetch_activity_zones (one key per
distribution bucket, up to five; modelled as an oracle result since the
function is a network-call wrapper). -/
structure ZoneData where
  zone_1_seconds : Option Int
  zone_2_seconds : Option Int
  zone_3_seconds : Option Int
  zone_4_seconds : Option Int
  zone_5_seconds : Option Int
  deriving DecidableEq, Repr

/-- A row of the activity_hr_zones table (migration 005,
UNIQUE(user_id, activity_id)). -/
structure HRZoneRow where
  user_id : Int
  activity_id : Int
  zone_1_seconds : Int
  zone_2_seconds : Int
  zone_3_seconds : Int
  zone_4_seconds : Int
  zone_5_seconds : Int
  fetched_at : DateTime
  deriving DecidableEq, Repr

/-- ORDER BY start_date DESC, by insertion sort (the relative order of equal
dates is unspecified in SQL and irrelevant to every claim). -/
def insertByStartDesc (r : ActivityRow) : List ActivityRow → List ActivityRow
  | [] => [r]
  | x :: xs =>
    if x.start_date ≤ r.start_date then r :: x :: xs else x :: insertByStartDesc r xs

def sortByStartDesc (l : List ActivityRow) : List ActivityRow :=
  l.foldr insertByStartDesc []

/-- sync_hr_zones_for_user: select up to lim most recent activities of the
user that carry an average heart rate and have no activity_hr_zones row yet;
for each, ask the zones oracle; a failed fetch leaves the activity
unenriched, a successful one INSERT OR IGNOREs a zone row and counts the
fetch (the source increments its counter after the INSERT OR IGNORE, so an
ignored conflict still counts). -/
def sync_hr_zones_for_user (now : DateTime) (uid : Int)
    (zonesOracle : Int → Option ZoneData) (lim : Nat)
    (acts : List ActivityRow) (zones : List HRZoneRow) : List HRZoneRow × Nat :=
  let pending := ((sortByStartDesc (acts.filter fun r =>
      r.user_id == uid && r.average_heartrate.isSome &&
        !(zones.any fun z => z.user_id == r.user_id && z.activity_id == r.activity_id))).map
    fun r => r.activity_id).take lim
  pending.foldl
    (fun (s : List HRZoneRow × Nat) aid =>
      match zonesOracle aid with
      | none => s
      | some zd =>
        let row : HRZoneRow :=
          { user_id := uid, activity_id := aid,
            zone_1_seconds := zd.zone_1_seconds.getD 0,
            zone_2_seconds := zd.zone_2_seconds.getD 0,
            zone_3_seconds := zd.zone_3_seconds.getD 0,
            zone_4_seconds := zd.zone_4_seconds.getD 0,
            zone_5_seconds := zd.zone_5_seconds.getD 0,
            fetched_at := now }
        if s.1.any fun z => z.user_id == uid && z.activity_id == aid then
          (s.1, s.2 + 1)
        else
          (s.1 ++ [row], s.2 + 1))
    (zones, 0)

/-- The segment dict inside an effort of the activity-detail response. -/
structure SegmentJson where
  id : Option Int
  name : Option String
  distance : Option Rat
  average_grade : Option Rat
  maximum_grade : Option Rat
  city : Option String
  state : Option String
  climb_category : Option Int
  deriving DecidableEq, Repr

/-- One segment_efforts entry of the activity-detail response. -/
structure EffortJson where
  id : Option Int
  segment : Option SegmentJson
  elapsed_time : Option Int
  moving_time : Option Int
  start_date : Option DateTime
  pr_rank : Option Int
  kom_rank : Option Int
  average_heartrate : Option Rat
  max_heartrate : Option Rat
  deriving DecidableEq, Repr

/-- A row of the global segments table (migration 007,
strava_segment_id UNIQUE). -/
structure SegmentRow where
  strava_segment_id : Int
  name : String
  distance : Option Rat
  average_grade : Option Rat
  maximum_grade : Option Rat
  city : Option String
  state : Option String
  climb_category : Int
  deriving DecidableEq, Repr

/-- A row of the segment_efforts table (migration 007,
UNIQUE(user_id, strava_effort_id)). -/
structure SegmentEffortRow where
  user_id : Int
  activity_id : Int
  strava_segment_id : Int
  strava_effort_id : Int
  elapsed_time : Option Int
  moving_time : Option Int
  start_date : Option DateTime
  pr_rank : Option Int
  kom_rank : Option Int
  average_heartrate : Option Rat
  max_heartrate : Option Rat
  fetched_at : DateTime
  deriving DecidableEq, Repr

/-- Python truthiness of an optional integer id: present and nonzero. -/
def truthyId (o : Option Int) : Option Int :=
  match o with
  | some i => if i = 0 then none else some i
  | none => none

/-- The empty dict default of effort.get for a missing segment key. -/
def emptySegmentJson : SegmentJson :=
  { id := none, name := none, distance := none, average_grade := none,
    maximum_grade := none, city := none, state := none, climb_category := none }

/-- Processing of one segment effort inside sync_segments_for_user: skip
efforts with a falsy segment id; INSERT OR REPLACE the segment master row
(drop rows with the same strava_segment_id, append the new one); for a
truthy effort id, INSERT OR IGNORE the effort row keyed
(user_id, strava_effort_id). -/
def processEffort (now : DateTime) (uid aid : Int)
    (s : List SegmentRow × List SegmentEffortRow) (e : EffortJson) :
    List SegmentRow × List SegmentEffortRow :=
  let seg := e.segment.getD emptySegmentJson
  match truthyId seg.id with
  | none => s
  | some sid =>
    let segs := (s.1.filter fun q => q.strava_segment_id != sid) ++
      [{ strava_segment_id := sid, name := seg.name.getD "",
         distance := seg.distance, average_grade := seg.average_grade,
         maximum_grade := seg.maximum_grade, city := seg.city, state := seg.state,
         climb_category := seg.climb_category.getD 0 }]
    match truthyId e.id with
    | none => (segs, s.2)
    | some eid =>
      let row : SegmentEffortRow :=
        { user_id := uid, activity_id := aid, strava_segment_id := sid,
          strava_effort_id := eid, elapsed_time := e.elapsed_time,
          moving_time := e.moving_time, start_date := e.start_date,
          pr_rank := e.pr_rank, kom_rank := e.kom_rank,
          average_heartrate := e.average_heartrate, max_heartrate := e.max_heartrate,
          fetched_at := now }
      if s.2.any fun q => q.user_id == uid && q.strava_effort_id == eid then
        (segs, s.2)
      else
        (segs, s.2 ++ [row])

/-- The activity-related tables touched by segment enrichment. -/
structure SegmentsState where
  activities : List ActivityRow
  segments : List SegmentRow
  segment_efforts : List SegmentEffortRow
  deriving DecidableEq, Repr

/-- The UPDATE activities SET segments_fetched = 1 statement. -/
def setSegmentsFetched (uid aid : Int) (acts : List ActivityRow) : List ActivityRow :=
  acts.map fun r =>
    if r.user_id == uid && r.activity_id == aid then { r with segments_fetched := true }
    else r

/-- One iteration of the sync_segments_for_user loop: a failed detail fetch
changes nothing (the activity is retried on a later cycle); a successful one
— zero efforts included — processes every effort and then marks the activity
as fetched and counts it as processed. -/
def processSegmentActivity (now : DateTime) (uid : Int)
    (detail : Int → Option (List EffortJson)) (st : SegmentsState × Nat) (aid : Int) :
    SegmentsState × Nat :=
  match detail aid with
  | none => st
  | some efforts =>
    let se := efforts.foldl (processEffort now uid aid) (st.1.segments, st.1.segment_efforts)
    ({ activities := setSegmentsFetched uid aid st.1.activities,
       segments := se.1, segment_efforts := se.2 }, st.2 + 1)

/-- The SELECT of sync_segments_for_user: ids of the user's activities with
segments_fetched = 0, most recent first, capped at lim. -/
def pendingSegmentIds (uid : Int) (lim : Nat) (acts : List ActivityRow) : List Int :=
  ((sortByStartDesc (acts.filter fun r =>
      r.user_id == uid && r.segments_fetched == false)).map
    fun r => r.activity_id).take lim

/-- sync_segments_for_user over its selected pending activities. -/
def sync_segments_for_user (now : DateTime) (uid : Int)
    (detail : Int → Option (List EffortJson)) (lim : Nat) (st : SegmentsState) :
    SegmentsState × Nat :=
  (pendingSegmentIds uid lim st.activities).foldl (processSegmentActivity now uid detail)
    (st, 0)

/-- The tables sync_user_activities reads or writes. -/
structure SyncDb where
  users : List User
  activities : List ActivityRow
  hr_zones : List HRZoneRow
  segments : List SegmentRow
  segment_efforts : List SegmentEffortRow
  deriving DecidableEq, Repr

/-- sync_user_activities: look the active user up, refresh the token if
needed (an error aborts the user's cycle at once), compute the watermark,
fetch, save, then run the two enrichment passes. The credential write of a
successful refresh is reflected in the returned refresh effects rather than
in the users table here; no claim reads it back. The zones and segments
passes are wrapped in try/except by the source and never change the
(new_count, error) result. -/
def sync_user_activities (now : DateTime) (uid : Int) (tokenResp : TokenResponse)
    (pages : Nat → PageResult) (zonesOracle : Int → Option ZoneData)
    (detail : Int → Option (List EffortJson)) (db : SyncDb) :
    SyncDb × Int × Option String :=
  match (db.users.filter fun u => u.id == uid && u.is_active).head? with
  | none => (db, 0, some "User not found or inactive")
  | some user =>
    match refresh_user_token_if_needed now user tokenResp with
    | ((_, some err), _) => (db, 0, some err)
    | ((_, none), _) =>
      let last_date := get_last_activity_date uid db.activities
      match fetch_activities_since pages last_date 50 with
      | (_, some err) => (db, 0, some err)
      | (activitiesOpt, none) =>
        let acts := activitiesOpt.getD []
        if acts = [] then (db, 0, none)
        else
          let saved := save_activities uid acts db.activities
          let zres := sync_hr_zones_for_user now uid zonesOracle 20 saved.1 db.hr_zones
          let sres := sync_segments_for_user now uid detail 10
            { activities := saved.1, segments := db.segments,
              segment_efforts := db.segment_efforts }
          ({ users := db.users, activities := sres.1.activities, hr_zones := zres.1,
             segments := sres.1.segments, segment_efforts := sres.1.segment_efforts },
           saved.2, none)

/-- Seconds in a week, timedelta(days=7). -/
def WEEK : Int := 7 * 86400

/-- Monday 00:00:00 of the week containing an instant:
dt - timedelta(days=dt.weekday()) with the time replaced by midnight.
Epoch day 0 (1970-01-01) was a Thursday, Python weekday 3. -/
def mondayOf (t : DateTime) : DateTime :=
  let day := t.fdiv 86400
  (day - (day + 3) % 7) * 86400

/-- datetime(2026, 1, 5), the first Monday of 2026, as an epoch. -/
def TROPHY_START_DATE : DateTime := 1767571200

/-- A row of the weekly_trophies table (migration 002,
UNIQUE(user_id, week_start)). -/
structure TrophyRow where
  user_id : Int
  week_start : DateTime
  week_end : DateTime
  total_distance : Rat
  activity_count : Nat
  deriving DecidableEq, Repr

/-- The stats dict of calculate_weekly_trophies (error list omitted: the
model raises no exceptions). -/
structure TrophyStats where
  weeks_processed : Nat
  trophies_awarded : Nat
  weeks_skipped : Nat
  deriving DecidableEq, Repr

def initialTrophyStats : TrophyStats :=
  { weeks_processed := 0, trophies_awarded := 0, weeks_skipped := 0 }

/-- The activity types that count for trophies and kudos boards. -/
def qualifyingTypes : List String := ["Walk", "Hike", "Run", "Ride"]

/-- The WHERE clause of the weekly-totals query: start_date in the half-open
week range, qualifying type, not a private ("only_me") activity. -/
def weekQualifying (ws we : DateTime) (r : ActivityRow) : Bool :=
  ws ≤ r.start_date && r.start_date < we &&
    qualifyingTypes.contains r.type && r.visibility != "only_me"

/-- One grouped row of the weekly-totals query. -/
structure WeekResult where
  user_id : Int
  total_distance : Rat
  activity_count : Nat
  deriving DecidableEq, Repr

/-- GROUP BY user_id: the distinct user ids among the week's qualifying
activities. -/
def weeklyUserIds (acts : List ActivityRow) (ws we : DateTime) : List Int :=
  ((acts.filter (weekQualifying ws we)).map fun r => r.user_id).dedup

/-- SUM(distance) of one user's qualifying activities in the week. -/
def weeklyTotal (acts : List ActivityRow) (ws we : DateTime) (uid : Int) : Rat :=
  (((acts.filter (weekQualifying ws we)).filter fun r => r.user_id == uid).map
    fun r => r.distance).sum

/-- COUNT(*) of one user's qualifying activities in the week. -/
def weeklyCount (acts : List ActivityRow) (ws we : DateTime) (uid : Int) : Nat :=
  ((acts.filter (weekQualifying ws we)).filter fun r => r.user_id == uid).length

def insertByTotalDesc (r : WeekResult) : List WeekResult → List WeekResult
  | [] => [r]
  | x :: xs =>
    if x.total_distance ≤ r.total_distance then r :: x :: xs
    else x :: insertByTotalDesc r xs

/-- ORDER BY total_distance DESC, by insertion sort (SQL leaves the order of
ties unspecified). -/
def sortByTotalDesc (l : List WeekResult) : List WeekResult :=
  l.foldr insertByTotalDesc []

/-- The weekly-totals query: per-user sums and counts over qualifying
activities, rows with HAVING total_distance > 0, ordered by total
descending. -/
def weekly_results (acts : List ActivityRow) (ws we : DateTime) : List WeekResult :=
  sortByTotalDesc ((weeklyUserIds acts ws we).filterMap fun u =>
    let t := weeklyTotal acts ws we u
    if 0 < t then
      some { user_id := u, total_distance := t, activity_count := weeklyCount acts ws we u }
    else none)

/-- The awarding loop over the descending results: insert a trophy for every
row whose total reaches the winning distance, stop at the first row below it
(the break of the source). -/
def awardLoop (ws we : DateTime) (maxd : Rat) : List WeekResult → List TrophyRow
  | [] => []
  | r :: rest =>
    if maxd ≤ r.total_distance then
      { user_id := r.user_id, week_start := ws, week_end := we,
        total_distance := r.total_distance,
        activity_count := r.activity_count } :: awardLoop ws we maxd rest
    else []

/-- The body of the week loop of calculate_weekly_trophies, acting on
(weekly_trophies table, stats). A week still in progress (week_end past now)
or one that already has any trophy row is skipped; an empty result set is
skipped; otherwise the head of the descending results is the winning
distance and the awarding loop runs. -/
def processWeek (now : DateTime) (acts : List ActivityRow)
    (s : List TrophyRow × TrophyStats) (ws : DateTime) : List TrophyRow × TrophyStats :=
  let we := ws + WEEK
  let existing := (s.1.filter fun t => t.week_start == ws).length
  if now < we then
    (s.1, { s.2 with weeks_skipped := s.2.weeks_skipped + 1 })
  else if 0 < existing then
    (s.1, { s.2 with weeks_skipped := s.2.weeks_skipped + 1 })
  else
    match weekly_results acts ws we with
    | [] => (s.1, { s.2 with weeks_skipped := s.2.weeks_skipped + 1 })
    | top :: rest =>
      let winners := awardLoop ws we top.total_distance (top :: rest)
      (s.1 ++ winners,
        { s.2 with weeks_processed := s.2.weeks_processed + 1,
                   trophies_awarded := s.2.trophies_awarded + winners.length })

/-- The Mondays the week loop visits: start, start + 7d, ... while not past
now. -/
def weekStarts (start now : DateTime) : List DateTime :=
  if start ≤ now then
    (List.range (((now - start).fdiv WEEK).toNat + 1)).map fun i => start + WEEK * i
  else []

/-- calculate_weekly_trophies. With no stored activity the early return
leaves everything untouched (SQL MIN over an empty table is NULL).
Otherwise the scan starts at the later of the first activity's Monday and
TROPHY_START_DATE and folds the week body forward to now. (The source also
reads MAX(start_date) but never uses it for the loop bounds.) -/
def calculate_weekly_trophies (now : DateTime) (acts : List ActivityRow)
    (trophies : List TrophyRow) : List TrophyRow × TrophyStats :=
  match acts.map (fun r => r.start_date) with
  | [] => (trophies, initialTrophyStats)
  | d :: ds =>
    let first_activity := ds.foldl min d
    let start := max (mondayOf first_activity) TROPHY_START_DATE
    (weekStarts start now).foldl (processWeek now acts) (trophies, initialTrophyStats)

/-- The epoch of 2026-01-01, the all-time kudos cutoff date. -/
def KUDOS_EPOCH : DateTime := 1767225600

/-- The activity-side WHERE clause of the weekly kudos leaderboard:
non-private, qualifying type, inside the current Monday-to-Sunday window,
with at least one kudo. -/
def kudosWeekQualifying (now : DateTime) (r : ActivityRow) : Bool :=
  let ws := mondayOf now
  let we := ws + WEEK
  r.visibility != "only_me" && qualifyingTypes.contains r.type &&
    ws ≤ r.start_date && r.start_date < we && 0 < r.kudos_count

/-- The activity-side WHERE clause of the all-time kudos leaderboard:
non-private, qualifying type, since 2026-01-01, with at least one kudo. -/
def kudosAllTimeQualifying (r : ActivityRow) : Bool :=
  r.visibility != "only_me" && qualifyingTypes.contains r.type &&
    KUDOS_EPOCH ≤ r.start_date && 0 < r.kudos_count

/-- One row of a kudos leaderboard. The user display columns and the
rounded average column are reproductions of other fields and carry no logic;
they are omitted. -/
structure KudosEntry where
  user_id : Int
  total_kudos : Int
  activity_count : Nat
  deriving DecidableEq, Repr

def insertByKudosDesc (r : KudosEntry) : List KudosEntry → List KudosEntry
  | [] => [r]
  | x :: xs =>
    if x.total_kudos ≤ r.total_kudos then r :: x :: xs else x :: insertByKudosDesc r xs

def sortByKudosDesc (l : List KudosEntry) : List KudosEntry :=
  l.foldr insertByKudosDesc []

/-- One user's grouped kudos row over the activities passing the given
filter: none for inactive or private users and for users with no matching
activity (the INNER JOIN drops them), otherwise the kudos sum and activity
count. -/
def kudosRowFor (acts : List ActivityRow) (qual : ActivityRow → Bool)
    (u : User) : Option KudosEntry :=
  if u.is_active && u.privacy_level != "private" then
    match acts.filter fun r => r.user_id == u.id && qual r with
    | [] => none
    | m :: ms =>
      some { user_id := u.id,
             total_kudos := ((m :: ms).map fun r => r.kudos_count).sum,
             activity_count := (m :: ms).length }
  else none

/-- Grouped kudos rows for every user, ordered by total descending,
LIMIT 10. -/
def kudosBoard (users : List User) (acts : List ActivityRow)
    (qual : ActivityRow → Bool) : List KudosEntry :=
  (sortByKudosDesc (users.filterMap (kudosRowFor acts qual))).take 10

/-- get_weekly_kudos_leaderboard: current-week kudos sums, top ten. -/
def get_weekly_kudos_leaderboard (now : DateTime) (users : List User)
    (acts : List ActivityRow) : List KudosEntry :=
  kudosBoard users acts (kudosWeekQualifying now)

/-- get_alltime_kudos_leaderboard: kudos sums since 2026-01-01, top ten. -/
def get_alltime_kudos_leaderboard (users : List User)
    (acts : List ActivityRow) : List KudosEntry :=
  kudosBoard users acts kudosAllTimeQualifying

/-- C4: with more than 300 seconds of validity left the stored user is
returned unchanged with no error, no network call and no storage write;
otherwise the token endpoint is called, and a non-2xx response yields an
error naming the HTTP status, upon which sync_user_activities reports that
user's sync as failed for the cycle with nothing written and nothing further
attempted. -/
theorem refresh_token_policy (now : Int) (user : User) (resp : TokenResponse) :
    (now + 300 < user.token_expires_at →
        refresh_user_token_if_needed now user resp = ((some user, none), [])) ∧
    (user.token_expires_at ≤ now + 300 →
        RefreshEffect.tokenEndpointCall ∈ (refresh_user_token_if_needed now user resp).2) ∧
    (user.token_expires_at ≤ now + 300 → resp.status < 200 ∨ 300 ≤ resp.status →
        refresh_user_token_if_needed now user resp
          = ((none, some ("Token refresh failed: " ++ toString resp.status)),
              [RefreshEffect.tokenEndpointCall])) ∧
    (∀ (uid : Int) (pages : Nat → PageResult) (zonesOracle : Int → Option ZoneData)
        (detail : Int → Option (List EffortJson)) (db : SyncDb),
      (db.users.filter fun u => u.id == uid && u.is_active).head? = some user →
      user.token_expires_at ≤ now + 300 → resp.status < 200 ∨ 300 ≤ resp.status →
      sync_user_activities now uid resp pages zonesOracle detail db
        = (db, 0, some ("Token refresh failed: " ++ toString resp.status))) := by
  refine ⟨?_, ?_, ?_, ?_⟩
  · intro h
    unfold refresh_user_token_if_needed
    rw [if_pos h]
  · intro h
    unfold refresh_user_token_if_needed
    rw [if_neg (by omega)]
    split <;> simp
  · intro h hs
    unfold refresh_user_token_if_needed
    rw [if_neg (by omega), if_pos (by omega)]
  · intro uid pages zonesOracle detail db hfind h hs
    have hr : refresh_user_token_if_needed now user resp
        = ((none, some ("Token refresh failed: " ++ toString resp.status)),
            [RefreshEffect.tokenEndpointCall]) := by
      unfold refresh_user_token_if_needed
      rw [if_neg (by omega), if_pos (by omega)]
    simp only [sync_user_activities, hfind, hr]

/-- A user whose credential expires at epoch 1000000. -/
def wUser : User :=
  { id := 1, firstname := "A", lastname := "B", access_token := "tok",
    refresh_token := "ref", token_expires_at := 1000000,
    privacy_level := "club_only", is_active := true }

/-- A 500 response from the token endpoint. -/
def wResp500 : TokenResponse :=
  { status := 500, access_token := "na", refresh_token := "nr", expires_at := 0 }

/-- A database holding only wUser. -/
def wDb : SyncDb :=
  { users := [wUser], activities := [], hr_zones := [], segments := [],
    segment_efforts := [] }

/-- Witness for the token policy: a fresh token is passed through untouched
with no effects; a stale token with a 500 response yields the status-naming
error, and the sync for that user fails with the database untouched. -/
theorem refresh_token_policy_witness :
    (refresh_user_token_if_needed 0 wUser wResp500 = ((some wUser, none), [])) ∧
    (refresh_user_token_if_needed 1000000 wUser wResp500
        = ((none, some ("Token refresh failed: " ++ toString (500 : Int))),
            [RefreshEffect.tokenEndpointCall])) ∧
    (sync_user_activities 1000000 1 wResp500 (fun _ => PageResult.timeout)
        (fun _ => none) (fun _ => none) wDb
        = (wDb, 0, some ("Token refresh failed: " ++ toString (500 : Int)))) := by
  refine ⟨?_, ?_, ?_⟩
  · exact (refresh_token_policy 0 wUser wResp500).1 (by decide)
  · exact (refresh_token_policy 1000000 wUser wResp500).2.2.1 (by decide) (by decide)
  · exact (refresh_token_policy 1000000 wUser wResp500).2.2.2 1 _ _ _ wDb rfl
      (by decide) (by decide)

/-- C5: each iteration of the fetch pagination loop classifies failures: a
429 response returns the rate-limited error at once with no inline sleep or
retry, a 401 returns the invalid-authentication error, any other non-2xx
status returns the generic API error naming the status, and a timeout is no
error — pagination is cut short and everything collected so far is
returned. -/
theorem fetch_status_classification (pages : Nat → PageResult) (per_page : Int)
    (acc : List ActivityJson) (page fuel : Nat) :
    (∀ body, pages page = PageResult.http 429 body →
        fetchLoop pages per_page acc page (fuel + 1)
          = (none, some "Strava API rate limit exceeded. Will retry on next sync.")) ∧
    (∀ body, pages page = PageResult.http 401 body →
        fetchLoop pages per_page acc page (fuel + 1)
          = (none, some "Authentication failed. Token may be invalid.")) ∧
    (∀ (s : Int) body, pages page = PageResult.http s body →
        s < 200 ∨ 300 ≤ s → s ≠ 429 → s ≠ 401 →
        fetchLoop pages per_page acc page (fuel + 1)
          = (none, some ("API error: " ++ toString s))) ∧
    (pages page = PageResult.timeout →
        fetchLoop pages per_page acc page (fuel + 1) = (some acc, none)) := by
  refine ⟨?_, ?_, ?_, ?_⟩
  · intro body h
    simp [fetchLoop, h]
  · intro body h
    simp [fetchLoop, h]
  · intro s body h hs h429 h401
    have h200 : s ≠ 200 := by omega
    simp [fetchLoop, h, h429, h401, h200]
  · intro h
    simp [fetchLoop, h]

def pagesA : Nat → PageResult := fun _ => PageResult.http 429 []

def pagesB : Nat → PageResult := fun _ => PageResult.http 401 []

def pagesC : Nat → PageResult := fun _ => PageResult.http 500 []

def pagesD : Nat → PageResult := fun _ => PageResult.timeout

/-- Witness for the failure classification at concrete page oracles. -/
theorem fetch_status_classification_witness :
    (fetchLoop pagesA 50 [] 1 (9 + 1)
        = (none, some "Strava API rate limit exceeded. Will retry on next sync.")) ∧
    (fetchLoop pagesB 50 [] 1 (9 + 1)
        = (none, some "Authentication failed. Token may be invalid.")) ∧
    (fetchLoop pagesC 50 [] 1 (9 + 1) = (none, some ("API error: " ++ toString (500 : Int)))) ∧
    (fetchLoop pagesD 50 [] 1 (9 + 1) = (some [], none)) := by
  refine ⟨?_, ?_, ?_, ?_⟩
  · exact (fetch_status_classification pagesA 50 [] 1 9).1 [] rfl
  · exact (fetch_status_classification pagesB 50 [] 1 9).2.1 [] rfl
  · exact (fetch_status_classification pagesC 50 [] 1 9).2.2.1 500 [] rfl (by omega)
      (by omega) (by omega)
  · exact (fetch_status_classification pagesD 50 [] 1 9).2.2.2 rfl

theorem fetchLoop_error_none (pages : Nat → PageResult) (per_page : Int) :
    ∀ (fuel : Nat) (acc : List ActivityJson) (page : Nat) (e : String),
      (fetchLoop pages per_page acc page fuel).2 = some e →
      (fetchLoop pages per_page acc page fuel).1 = none := by
  intro fuel
  induction fuel with
  | zero =>
    intro acc page e h
    exact absurd h (by simp [fetchLoop])
  | succ n ih =>
    intro acc page e h
    cases hp : pages page with
    | timeout =>
      rw [show fetchLoop pages per_page acc page (n + 1) = (some acc, none) by
        simp [fetchLoop, hp]] at h
      exact absurd h (by simp)
    | failure msg =>
      simp [fetchLoop, hp]
    | http s body =>
      by_cases h429 : s = 429
      · simp [fetchLoop, hp, h429]
      · by_cases h401 : s = 401
        · simp [fetchLoop, hp, h429, h401]
        · by_cases h200 : s = 200
          · subst h200
            by_cases hempty : body = []
            · rw [show fetchLoop pages per_page acc page (n + 1) = (some acc, none) by
                simp [fetchLoop, hp, hempty]] at h
              exact absurd h (by simp)
            · by_cases hshort : (body.length : Int) < per_page
              · rw [show fetchLoop pages per_page acc page (n + 1)
                    = (some (acc ++ body), none) by
                  simp [fetchLoop, hp, hempty, hshort]] at h
                exact absurd h (by simp)
              · have hrec : fetchLoop pages per_page acc page (n + 1)
                    = fetchLoop pages per_page (acc ++ body) (page + 1) n := by
                  simp [fetchLoop, hp, hempty, hshort]
                rw [hrec] at h ⊢
                exact ih _ _ e h
          · simp [fetchLoop, hp, h429, h401, h200]

/-- C10: whenever fetch_activities_since reports an error — 429, 401, any
other non-2xx status or a non-timeout exception — the activities component
of its result is None: pages collected earlier in the same call are
discarded, and only the timeout path returns a partial list. -/
theorem fetch_error_discards_partial (pages : Nat → PageResult)
    (after_date : Option DateTime) (per_page : Int) (e : String)
    (h : (fetch_activities_since pages after_date per_page).2 = some e) :
    (fetch_activities_since pages after_date per_page).1 = none :=
  fetchLoop_error_none pages per_page 10 [] 1 e h

/-- A page oracle producing one full page of results and then a 429. -/
def pagesPartial : Nat → PageResult :=
  fun n => if n = 1 then PageResult.http 200 [wJson] else PageResult.http 429 []

/-- Witness: with page size 1, a full first page followed by a 429 ends the
call in the rate-limit error and the first page's record is discarded. -/
theorem fetch_error_discards_partial_witness :
    (fetch_activities_since pagesPartial none 1).2
        = some "Strava API rate limit exceeded. Will retry on next sync." ∧
    (fetch_activities_since pagesPartial none 1).1 = none := by
  refine ⟨rfl, ?_⟩
  exact fetch_error_discards_partial pagesPartial none 1 _ rfl

theorem mem_insertByTotalDesc {b r : WeekResult} :
    ∀ {l : List WeekResult}, b ∈ insertByTotalDesc r l ↔ b = r ∨ b ∈ l := by
  intro l
  induction l with
  | nil => simp [insertByTotalDesc]
  | cons x xs ih =>
    unfold insertByTotalDesc
    by_cases hc : x.total_distance ≤ r.total_distance
    · rw [if_pos hc]
      simp [or_comm, or_assoc, or_left_comm]
    · rw [if_neg hc]
      simp only [List.mem_cons, ih]
      tauto

theorem insertByTotalDesc_pairwise (r : WeekResult) :
    ∀ (l : List WeekResult),
      l.Pairwise (fun a b => b.total_distance ≤ a.total_distance) →
      (insertByTotalDesc r l).Pairwise
        (fun a b => b.total_distance ≤ a.total_distance) := by
  intro l
  induction l with
  | nil => intro _; simp [insertByTotalDesc]
  | cons x xs ih =>
    intro hp
    unfold insertByTotalDesc
    by_cases hc : x.total_distance ≤ r.total_distance
    · rw [if_pos hc]
      refine List.Pairwise.cons ?_ hp
      intro b hb
      rcases List.mem_cons.mp hb with rfl | hb
      · exact hc
      · exact le_trans (List.rel_of_pairwise_cons hp hb) hc
    · rw [if_neg hc]
      refine List.Pairwise.cons ?_ (ih (List.Pairwise.of_cons hp))
      intro b hb
      rcases mem_insertByTotalDesc.mp hb with rfl | hb
      · exact le_of_lt (not_le.mp hc)
      · exact List.rel_of_pairwise_cons hp hb

theorem mem_sortByTotalDesc {b : WeekResult} :
    ∀ {l : List WeekResult}, b ∈ sortByTotalDesc l ↔ b ∈ l := by
  intro l
  induction l with
  | nil => simp [sortByTotalDesc]
  | cons x xs ih =>
    show b ∈ insertByTotalDesc x (sortByTotalDesc xs) ↔ _
    rw [mem_insertByTotalDesc, ih]
    simp

theorem sortByTotalDesc_pairwise :
    ∀ (l : List WeekResult),
      (sortByTotalDesc l).Pairwise (fun a b => b.total_distance ≤ a.total_distance) := by
  intro l
  induction l with
  | nil => exact List.Pairwise.nil
  | cons x xs ih => exact insertByTotalDesc_pairwise x (sortByTotalDesc xs) ih

/-- Every row of the weekly results carries its own user's weekly total, and
that total is positive (the HAVING clause). -/
theorem weekly_results_spec (acts : List ActivityRow) (ws we : DateTime) :
    ∀ r ∈ weekly_results acts ws we,
      r.total_distance = weeklyTotal acts ws we r.user_id ∧ 0 < r.total_distance := by
  intro r hr
  rw [weekly_results, mem_sortByTotalDesc] at hr
  obtain ⟨u, _, hu⟩ := List.mem_filterMap.mp hr
  by_cases ht : 0 < weeklyTotal acts ws we u
  · rw [if_pos ht] at hu
    cases hu
    exact ⟨rfl, ht⟩
  · rw [if_neg ht] at hu
    exact Option.noConfusion hu

/-- A user with positive weekly total appears in the weekly results with
exactly that total. -/
theorem mem_weekly_results_of_pos (acts : List ActivityRow) (ws we : DateTime)
    (u : Int) (h : 0 < weeklyTotal acts ws we u) :
    ({ user_id := u, total_distance := weeklyTotal acts ws we u,
        activity_count := weeklyCount acts ws we u } : WeekResult)
      ∈ weekly_results acts ws we := by
  rw [weekly_results, mem_sortByTotalDesc]
  apply List.mem_filterMap.mpr
  refine ⟨u, ?_, by rw [if_pos h]⟩
  -- u is among the grouped user ids: its per-user filter cannot be empty
  unfold weeklyUserIds
  rw [List.mem_dedup]
  by_contra hu
  have hnil : ((acts.filter (weekQualifying ws we)).filter
      fun r => r.user_id == u) = [] := by
    rw [List.filter_eq_nil_iff]
    intro r hrq
    intro hru
    exact hu (List.mem_map.mpr ⟨r, hrq, beq_iff_eq.mp hru⟩)
  unfold weeklyTotal at h
  rw [hnil] at h
  exact absurd h (by simp)

/-- The awarding loop inserts a trophy for every result at the winning
distance, provided the list is sorted descending. -/
theorem awardLoop_mem (ws we : DateTime) (maxd : Rat) :
    ∀ (l : List WeekResult),
      l.Pairwise (fun a b => b.total_distance ≤ a.total_distance) →
      ∀ x ∈ l, maxd ≤ x.total_distance →
      ({ user_id := x.user_id, week_start := ws, week_end := we,
          total_distance := x.total_distance,
          activity_count := x.activity_count } : TrophyRow) ∈ awardLoop ws we maxd l := by
  intro l
  induction l with
  | nil => intro _ x hx; exact absurd hx (List.not_mem_nil x)
  | cons r rest ih =>
    intro hp x hx hle
    rcases List.mem_cons.mp hx with rfl | hx
    · unfold awardLoop
      rw [if_pos hle]
      exact List.mem_cons_self _ _
    · have hr : maxd ≤ r.total_distance :=
        le_trans hle (List.rel_of_pairwise_cons hp hx)
      unfold awardLoop
      rw [if_pos hr]
      exact List.mem_cons_of_mem _ (ih (List.Pairwise.of_cons hp) x hx hle)

/-- Everything the awarding loop inserts comes from a result whose total
reaches the winning distance. -/
theorem awardLoop_sub (ws we : DateTime) (maxd : Rat) :
    ∀ (l : List WeekResult) (t : TrophyRow), t ∈ awardLoop ws we maxd l →
      ∃ x ∈ l, maxd ≤ x.total_distance ∧
        t = { user_id := x.user_id, week_start := ws, week_end := we,
              total_distance := x.total_distance, activity_count := x.activity_count } := by
  intro l
  induction l with
  | nil => intro t ht; exact absurd ht (List.not_mem_nil t)
  | cons r rest ih =>
    intro t ht
    unfold awardLoop at ht
    by_cases hc : maxd ≤ r.total_distance
    · rw [if_pos hc] at ht
      rcases List.mem_cons.mp ht with rfl | ht
      · exact ⟨r, List.mem_cons_self _ _, hc, rfl⟩
      · obtain ⟨x, hx, hxle, hxe⟩ := ih t ht
        exact ⟨x, List.mem_cons_of_mem _ hx, hxle, hxe⟩
    · rw [if_neg hc] at ht
      exact absurd ht (List.not_mem_nil t)

theorem exists_mem_of_filter_length_pos {α : Type} (l : List α) (p : α → Bool)
    (h : 0 < (l.filter p).length) : ∃ t ∈ l, p t = true := by
  cases hf : l.filter p with
  | nil => rw [hf] at h; exact absurd h (by simp)
  | cons x xs =>
    have hx : x ∈ l.filter p := by rw [hf]; exact List.mem_cons_self _ _
    exact ⟨x, (List.mem_filter.mp hx).1, (List.mem_filter.mp hx).2⟩

/-- processWeek only ever appends trophies. -/
theorem processWeek_trophies_prefix (now : DateTime) (acts : List ActivityRow)
    (s : List TrophyRow × TrophyStats) (ws : DateTime) :
    ∃ l, (processWeek now acts s ws).1 = s.1 ++ l := by
  simp only [processWeek]
  by_cases h1 : now < ws + WEEK
  · rw [if_pos h1]; exact ⟨[], by simp⟩
  · rw [if_neg h1]
    by_cases h2 : 0 < (s.1.filter fun t => t.week_start == ws).length
    · rw [if_pos h2]; exact ⟨[], by simp⟩
    · rw [if_neg h2]
      cases hres : weekly_results acts ws (ws + WEEK) with
      | nil => exact ⟨[], by simp⟩
      | cons top rest =>
        exact ⟨awardLoop ws (ws + WEEK) top.total_distance (top :: rest), rfl⟩

/-- The week fold only ever appends trophies. -/
theorem foldWeeks_trophies_prefix (now : DateTime) (acts : List ActivityRow) :
    ∀ (weeks : List DateTime) (s : List TrophyRow × TrophyStats),
      ∃ l, (weeks.foldl (processWeek now acts) s).1 = s.1 ++ l := by
  intro weeks
  induction weeks with
  | nil => intro s; exact ⟨[], by simp⟩
  | cons w rest ih =>
    intro s
    obtain ⟨l1, h1⟩ := processWeek_trophies_prefix now acts s w
    obtain ⟨l2, h2⟩ := ih (processWeek now acts s w)
    rw [List.foldl_cons]
    exact ⟨l1 ++ l2, by rw [h2, h1, List.append_assoc]⟩

/-- After the fold, every fully elapsed visited week with a nonempty result
set has a trophy row. -/
theorem foldWeeks_covers (now : DateTime) (acts : List ActivityRow) :
    ∀ (weeks : List DateTime) (s : List TrophyRow × TrophyStats) (ws : DateTime),
      ws ∈ weeks → ws + WEEK ≤ now → weekly_results acts ws (ws + WEEK) ≠ [] →
      ∃ t ∈ (weeks.foldl (processWeek now acts) s).1, t.week_start = ws := by
  intro weeks
  induction weeks with
  | nil => intro s ws h; exact absurd h (List.not_mem_nil ws)
  | cons w rest ih =>
    intro s ws hmem hdone hres
    rw [List.foldl_cons]
    rcases List.mem_cons.mp hmem with rfl | hmem
    · have hx : ∃ t ∈ (processWeek now acts s ws).1, t.week_start = ws := by
        simp only [processWeek]
        rw [if_neg (not_lt.mpr hdone)]
        by_cases h2 : 0 < (s.1.filter fun t => t.week_start == ws).length
        · rw [if_pos h2]
          obtain ⟨t, ht, htws⟩ := exists_mem_of_filter_length_pos s.1 _ h2
          exact ⟨t, ht, beq_iff_eq.mp htws⟩
        · rw [if_neg h2]
          cases hres2 : weekly_results acts ws (ws + WEEK) with
          | nil => exact absurd hres2 hres
          | cons top rest2 =>
            refine ⟨{ user_id := top.user_id, week_start := ws, week_end := ws + WEEK,
                      total_distance := top.total_distance,
                      activity_count := top.activity_count }, ?_, rfl⟩
            apply List.mem_append_right
            unfold awardLoop
            rw [if_pos (le_refl _)]
            exact List.mem_cons_self _ _
      obtain ⟨t, ht, htws⟩ := hx
      obtain ⟨l, hl⟩ := foldWeeks_trophies_prefix now acts rest (processWeek now acts s ws)
      refine ⟨t, ?_, htws⟩
      rw [hl]
      exact List.mem_append_left _ ht
    · exact ih (processWeek now acts s w) ws hmem hdone hres

/-- When every fully elapsed week in the list already has a trophy row or an
empty result set, the fold changes nothing and awards nothing. -/
theorem foldWeeks_all_skip (now : DateTime) (acts : List ActivityRow) :
    ∀ (weeks : List DateTime) (s : List TrophyRow × TrophyStats),
      (∀ ws ∈ weeks, ws + WEEK ≤ now →
        0 < (s.1.filter fun t => t.week_start == ws).length ∨
          weekly_results acts ws (ws + WEEK) = []) →
      (weeks.foldl (processWeek now acts) s).1 = s.1 ∧
      (weeks.foldl (processWeek now acts) s).2.trophies_awarded
        = s.2.trophies_awarded := by
  intro weeks
  induction weeks with
  | nil => intro s _; exact ⟨rfl, rfl⟩
  | cons w rest ih =>
    intro s hskip
    rw [List.foldl_cons]
    have hstep : (processWeek now acts s w).1 = s.1 ∧
        (processWeek now acts s w).2.trophies_awarded = s.2.trophies_awarded := by
      simp only [processWeek]
      by_cases h1 : now < w + WEEK
      · rw [if_pos h1]; exact ⟨rfl, rfl⟩
      · rw [if_neg h1]
        rcases hskip w (List.mem_cons_self w rest) (not_lt.mp h1) with h2 | h2
        · rw [if_pos h2]
          exact ⟨rfl, rfl⟩
        · by_cases h3 : 0 < (s.1.filter fun t => t.week_start == w).length
          · rw [if_pos h3]; exact ⟨rfl, rfl⟩
          · rw [if_neg h3, h2]
            exact ⟨rfl, rfl⟩
    have hrest := ih (processWeek now acts s w) fun ws hmem hd => by
      rw [hstep.1]
      exact hskip ws (List.mem_cons_of_mem w hmem) hd
    exact ⟨by rw [hrest.1, hstep.1], by rw [hrest.2, hstep.2]⟩

/-- C7: the week loop skips, writing no trophy, whenever the week's end is
past now (so the current, incomplete week never produces a trophy) or a
trophy row for that week already exists; consequently an immediate second
run of calculate_weekly_trophies leaves the trophy table unchanged and
awards zero trophies. -/
theorem trophy_skip_and_idempotent :
    (∀ (now : DateTime) (acts : List ActivityRow) (s : List TrophyRow × TrophyStats)
        (ws : DateTime), now < ws + WEEK →
      (processWeek now acts s ws).1 = s.1 ∧
      (processWeek now acts s ws).2.trophies_awarded = s.2.trophies_awarded) ∧
    (∀ (now : DateTime) (acts : List ActivityRow) (s : List TrophyRow × TrophyStats)
        (ws : DateTime),
      0 < (s.1.filter fun t => t.week_start == ws).length →
      (processWeek now acts s ws).1 = s.1 ∧
      (processWeek now acts s ws).2.trophies_awarded = s.2.trophies_awarded) ∧
    (∀ (now : DateTime) (acts : List ActivityRow) (trophies : List TrophyRow),
      (calculate_weekly_trophies now acts
          (calculate_weekly_trophies now acts trophies).1).1
        = (calculate_weekly_trophies now acts trophies).1 ∧
      (calculate_weekly_trophies now acts
          (calculate_weekly_trophies now acts trophies).1).2.trophies_awarded = 0) := by
  refine ⟨?_, ?_, ?_⟩
  · intro now acts s ws h
    simp only [processWeek]
    rw [if_pos h]
    exact ⟨rfl, rfl⟩
  · intro now acts s ws h
    simp only [processWeek]
    by_cases h1 : now < ws + WEEK
    · rw [if_pos h1]; exact ⟨rfl, rfl⟩
    · rw [if_neg h1, if_pos h]; exact ⟨rfl, rfl⟩
  · intro now acts trophies
    cases hm : acts.map (fun r => r.start_date) with
    | nil =>
      simp [calculate_weekly_trophies, hm, initialTrophyStats]
    | cons d ds =>
      simp only [calculate_weekly_trophies, hm]
      have hskip : ∀ ws ∈ weekStarts (max (mondayOf (ds.foldl min d)) TROPHY_START_DATE) now,
          ws + WEEK ≤ now →
          0 < ((((weekStarts (max (mondayOf (ds.foldl min d)) TROPHY_START_DATE) now).foldl
                (processWeek now acts) (trophies, initialTrophyStats)).1.filter
              fun t => t.week_start == ws).length) ∨
            weekly_results acts ws (ws + WEEK) = [] := by
        intro ws hmem hdone
        by_cases hres : weekly_results acts ws (ws + WEEK) = []
        · exact Or.inr hres
        · left
          obtain ⟨t, ht, htws⟩ := foldWeeks_covers now acts
            (weekStarts (max (mondayOf (ds.foldl min d)) TROPHY_START_DATE) now)
            (trophies, initialTrophyStats) ws hmem hdone hres
          have hmemf : t ∈ (((weekStarts (max (mondayOf (ds.foldl min d))
              TROPHY_START_DATE) now).foldl (processWeek now acts)
                (trophies, initialTrophyStats)).1.filter fun tt => tt.week_start == ws) :=
            List.mem_filter.mpr ⟨ht, beq_iff_eq.mpr htws⟩
          exact List.length_pos.mpr (List.ne_nil_of_mem hmemf)
      exact foldWeeks_all_skip now acts _ _ hskip

/-- A trophy row for the first trophy-eligible week. -/
def wTrophy : TrophyRow :=
  { user_id := 1, week_start := TROPHY_START_DATE, week_end := TROPHY_START_DATE + WEEK,
    total_distance := 8000, activity_count := 2 }

def actA1 : ActivityRow :=
  { user_id := 1, activity_id := 11, name := "a1", type := "Run",
    start_date := TROPHY_START_DATE + 3600, distance := 5000, moving_time := 0,
    elapsed_time := 0, total_elevation_gain := 0, average_speed := 0, max_speed := 0,
    average_heartrate := none, max_heartrate := none, calories := none,
    kudos_count := 3, visibility := "everyone", start_lat := none, start_lng := none,
    segments_fetched := false }

def actA2 : ActivityRow :=
  { user_id := 1, activity_id := 12, name := "a2", type := "Run",
    start_date := TROPHY_START_DATE + 2 * 86400, distance := 3000, moving_time := 0,
    elapsed_time := 0, total_elevation_gain := 0, average_speed := 0, max_speed := 0,
    average_heartrate := none, max_heartrate := none, calories := none,
    kudos_count := 1, visibility := "everyone", start_lat := none, start_lng := none,
    segments_fetched := false }

def actA3 : ActivityRow :=
  { user_id := 1, activity_id := 13, name := "a3", type := "Run",
    start_date := TROPHY_START_DATE + 4 * 86400, distance := 20000, moving_time := 0,
    elapsed_time := 0, total_elevation_gain := 0, average_speed := 0, max_speed := 0,
    average_heartrate := none, max_heartrate := none, calories := none,
    kudos_count := 50, visibility := "only_me", start_lat := none, start_lng := none,
    segments_fetched := false }

def actB : ActivityRow :=
  { user_id := 2, activity_id := 21, name := "b", type := "Ride",
    start_date := TROPHY_START_DATE + 86400, distance := 8000, moving_time := 0,
    elapsed_time := 0, total_elevation_gain := 0, average_speed := 0, max_speed := 0,
    average_heartrate := none, max_heartrate := none, calories := none,
    kudos_count := 2, visibility := "everyone", start_lat := none, start_lng := none,
    segments_fetched := false }

def actC : ActivityRow :=
  { user_id := 3, activity_id := 31, name := "c", type := "Walk",
    start_date := TROPHY_START_DATE + 86400 + 3600, distance := 1000, moving_time := 0,
    elapsed_time := 0, total_elevation_gain := 0, average_speed := 0, max_speed := 0,
    average_heartrate := none, max_heartrate := none, calories := none,
    kudos_count := 1, visibility := "everyone", start_lat := none, start_lng := none,
    segments_fetched := false }

/-- Week one scenario: user 1 totals 8000 (plus a 20000 only_me activity),
user 2 totals 8000, user 3 totals 1000. -/
def wActs : List ActivityRow := [actA1, actA2, actA3, actB, actC]

/-- Witness for the skip and idempotence properties at concrete data. -/
theorem trophy_skip_and_idempotent_witness :
    ((processWeek TROPHY_START_DATE wActs ([], initialTrophyStats) TROPHY_START_DATE).1
        = [] ∧
      (processWeek TROPHY_START_DATE wActs ([], initialTrophyStats)
          TROPHY_START_DATE).2.trophies_awarded = initialTrophyStats.trophies_awarded) ∧
    ((processWeek (TROPHY_START_DATE + 2 * WEEK) wActs ([wTrophy], initialTrophyStats)
          TROPHY_START_DATE).1 = [wTrophy] ∧
      (processWeek (TROPHY_START_DATE + 2 * WEEK) wActs ([wTrophy], initialTrophyStats)
          TROPHY_START_DATE).2.trophies_awarded = initialTrophyStats.trophies_awarded) ∧
    ((calculate_weekly_trophies (TROPHY_START_DATE + 2 * WEEK) wActs
          (calculate_weekly_trophies (TROPHY_START_DATE + 2 * WEEK) wActs []).1).1
        = (calculate_weekly_trophies (TROPHY_START_DATE + 2 * WEEK) wActs []).1 ∧
      (calculate_weekly_trophies (TROPHY_START_DATE + 2 * WEEK) wActs
          (calculate_weekly_trophies (TROPHY_START_DATE + 2 * WEEK) wActs
            []).1).2.trophies_awarded = 0) := by
  refine ⟨?_, ?_, ?_⟩
  · exact trophy_skip_and_idempotent.1 TROPHY_START_DATE wActs ([], initialTrophyStats)
      TROPHY_START_DATE (by decide)
  · exact trophy_skip_and_idempotent.2.1 (TROPHY_START_DATE + 2 * WEEK) wActs
      ([wTrophy], initialTrophyStats) TROPHY_START_DATE (by decide)
  · exact trophy_skip_and_idempotent.2.2 (TROPHY_START_DATE + 2 * WEEK) wActs []

/-- The C1 claim exactly as stated, at the level of the week-processing
step: in a fully elapsed, not-yet-awarded week that has at least one
qualifying activity, every user whose weekly total is at least every other
user's weekly total receives a trophy row for the week. -/
def trophyClaimAsStated : Prop :=
  ∀ (now : DateTime) (acts : List ActivityRow) (s : List TrophyRow × TrophyStats)
    (ws : DateTime) (uid : Int),
    ws + WEEK ≤ now →
    (s.1.filter fun t => t.week_start == ws).length = 0 →
    (∃ r ∈ acts, weekQualifying ws (ws + WEEK) r = true) →
    (∀ v : Int, weeklyTotal acts ws (ws + WEEK) v ≤ weeklyTotal acts ws (ws + WEEK) uid) →
    ∃ t ∈ (processWeek now acts s ws).1, t.user_id = uid ∧ t.week_start = ws

/-- A qualifying activity with distance zero. -/
def cexAct : ActivityRow :=
  { user_id := 1, activity_id := 99, name := "z", type := "Walk",
    start_date := TROPHY_START_DATE + 10, distance := 0, moving_time := 0,
    elapsed_time := 0, total_elevation_gain := 0, average_speed := 0, max_speed := 0,
    average_heartrate := none, max_heartrate := none, calories := none,
    kudos_count := 0, visibility := "everyone", start_lat := none, start_lng := none,
    segments_fetched := false }

/-- Counterexample to C1 as stated: with one qualifying Walk of distance 0
the maximum total over all users is 0 and user 1 reaches it, yet the HAVING
total_distance > 0 clause empties the result set and the week is skipped, so
no trophy row is written. -/
theorem trophy_claim_counterexample : ¬ trophyClaimAsStated := by
  intro h
  have hz : ∀ v : Int,
      weeklyTotal [cexAct] TROPHY_START_DATE (TROPHY_START_DATE + WEEK) v = 0 := by
    intro v
    unfold weeklyTotal
    rw [show List.filter (weekQualifying TROPHY_START_DATE (TROPHY_START_DATE + WEEK))
        [cexAct] = [cexAct] from by decide]
    cases hv : cexAct.user_id == v
    · simp [List.filter_cons, hv]
    · have hv1 : cexAct.user_id = v := beq_iff_eq.mp hv
      subst hv1
      simp [List.filter_cons, cexAct]
  have hres : weekly_results [cexAct] TROPHY_START_DATE (TROPHY_START_DATE + WEEK)
      = [] := by
    unfold weekly_results
    rw [show weeklyUserIds [cexAct] TROPHY_START_DATE (TROPHY_START_DATE + WEEK)
        = [1] from by decide]
    simp only [List.filterMap_cons, List.filterMap_nil]
    rw [hz 1]
    simp [sortByTotalDesc]
  have hpw : (processWeek (TROPHY_START_DATE + WEEK) [cexAct] ([], initialTrophyStats)
      TROPHY_START_DATE).1 = [] := by
    simp [processWeek, hres]
  obtain ⟨t, ht, _⟩ := h (TROPHY_START_DATE + WEEK) [cexAct] ([], initialTrophyStats)
    TROPHY_START_DATE 1 (by decide) (by decide)
    ⟨cexAct, List.mem_cons_self _ _, by decide⟩
    (fun v => by rw [hz v, hz 1])
  rw [hpw] at ht
  exact absurd ht (List.not_mem_nil t)

theorem head_max_of_pairwise (top : WeekResult) (rest : List WeekResult)
    (hp : (top :: rest).Pairwise (fun a b => b.total_distance ≤ a.total_distance)) :
    ∀ x ∈ top :: rest, x.total_distance ≤ top.total_distance := by
  intro x hx
  rcases List.mem_cons.mp hx with rfl | hx
  · exact le_refl _
  · exact List.rel_of_pairwise_cons hp hx

/-- C1 (amended): in a fully elapsed week with no trophy row yet, every user
whose weekly total is positive and at least every other user's total
receives a trophy row for the week — equal maximal totals all win — and no
user whose total is strictly below some other user's total receives one.
(The amendment adds positivity of the winning total: the HAVING
total_distance > 0 clause drops zero-distance weeks, the single point where
the claim as stated fails.) -/
theorem trophy_winner_selection (now : DateTime) (acts : List ActivityRow)
    (s : List TrophyRow × TrophyStats) (ws : DateTime) (uid : Int)
    (hdone : ws + WEEK ≤ now)
    (hnone : (s.1.filter fun t => t.week_start == ws).length = 0) :
    (0 < weeklyTotal acts ws (ws + WEEK) uid →
      (∀ v : Int, weeklyTotal acts ws (ws + WEEK) v ≤ weeklyTotal acts ws (ws + WEEK) uid) →
      ∃ t ∈ (processWeek now acts s ws).1, t.user_id = uid ∧ t.week_start = ws) ∧
    ((∃ v : Int, weeklyTotal acts ws (ws + WEEK) uid < weeklyTotal acts ws (ws + WEEK) v) →
      ∀ t ∈ (processWeek now acts s ws).1, t.week_start = ws → t.user_id ≠ uid) := by
  have hs1 : ∀ t ∈ s.1, t.week_start ≠ ws := by
    intro t ht htws
    have : t ∈ s.1.filter fun tt => tt.week_start == ws :=
      List.mem_filter.mpr ⟨ht, beq_iff_eq.mpr htws⟩
    rw [List.length_eq_zero.mp hnone] at this
    exact absurd this (List.not_mem_nil t)
  have hnpos : ¬ 0 < (s.1.filter fun t => t.week_start == ws).length := by
    rw [hnone]
    exact lt_irrefl 0
  have hpw : (weekly_results acts ws (ws + WEEK)).Pairwise
      (fun a b => b.total_distance ≤ a.total_distance) := sortByTotalDesc_pairwise _
  constructor
  · intro hpos hmaxhyp
    simp only [processWeek]
    rw [if_neg (not_lt.mpr hdone), if_neg hnpos]
    have hmem := mem_weekly_results_of_pos acts ws (ws + WEEK) uid hpos
    cases hres : weekly_results acts ws (ws + WEEK) with
    | nil =>
      rw [hres] at hmem
      exact absurd hmem (List.not_mem_nil _)
    | cons top rest =>
      rw [hres] at hmem hpw
      have htopmem : top ∈ weekly_results acts ws (ws + WEEK) := by
        rw [hres]; exact List.mem_cons_self _ _
      have htop := weekly_results_spec acts ws (ws + WEEK) top htopmem
      have hle : top.total_distance ≤ weeklyTotal acts ws (ws + WEEK) uid := by
        rw [htop.1]
        exact hmaxhyp top.user_id
      have haw := awardLoop_mem ws (ws + WEEK) top.total_distance (top :: rest) hpw
        _ hmem hle
      exact ⟨_, List.mem_append_right _ haw, rfl, rfl⟩
  · rintro ⟨v, hv⟩ t ht htws
    intro huid
    simp only [processWeek] at ht
    rw [if_neg (not_lt.mpr hdone), if_neg hnpos] at ht
    cases hres : weekly_results acts ws (ws + WEEK) with
    | nil =>
      rw [hres] at ht
      exact hs1 t ht htws
    | cons top rest =>
      rw [hres] at ht hpw
      rcases List.mem_append.mp ht with hmem | hmem
      · exact hs1 t hmem htws
      · obtain ⟨x, hx, hxle, rfl⟩ := awardLoop_sub ws (ws + WEEK) top.total_distance
          (top :: rest) t hmem
        have hxmem : x ∈ weekly_results acts ws (ws + WEEK) := by
          rw [hres]; exact hx
        have hxspec := weekly_results_spec acts ws (ws + WEEK) x hxmem
        have hxuid : weeklyTotal acts ws (ws + WEEK) x.user_id
            = weeklyTotal acts ws (ws + WEEK) uid := by
          rw [show x.user_id = uid from huid]
        have hvpos : 0 < weeklyTotal acts ws (ws + WEEK) v := by
          have h1 : 0 < x.total_distance := hxspec.2
          rw [hxspec.1, hxuid] at h1
          exact lt_trans h1 hv
        have hvmem := mem_weekly_results_of_pos acts ws (ws + WEEK) v hvpos
        rw [hres] at hvmem
        have hvle := head_max_of_pairwise top rest hpw _ hvmem
        have hchain : weeklyTotal acts ws (ws + WEEK) v ≤ weeklyTotal acts ws (ws + WEEK) uid := by
          calc weeklyTotal acts ws (ws + WEEK) v ≤ top.total_distance := hvle
            _ ≤ x.total_distance := hxle
            _ = weeklyTotal acts ws (ws + WEEK) uid := by rw [hxspec.1, hxuid]
        exact absurd hv (not_lt.mpr hchain)

theorem wActs_total_1 :
    weeklyTotal wActs TROPHY_START_DATE (TROPHY_START_DATE + WEEK) 1 = 8000 := by
  unfold weeklyTotal
  rw [show List.filter (weekQualifying TROPHY_START_DATE (TROPHY_START_DATE + WEEK)) wActs
      = [actA1, actA2, actB, actC] from by decide]
  rw [show List.filter (fun r => r.user_id == (1 : Int)) [actA1, actA2, actB, actC]
      = [actA1, actA2] from by decide]
  rw [show List.map (fun r => r.distance) [actA1, actA2] = [(5000 : Rat), 3000] from by decide]
  norm_num

theorem wActs_total_2 :
    weeklyTotal wActs TROPHY_START_DATE (TROPHY_START_DATE + WEEK) 2 = 8000 := by
  unfold weeklyTotal
  rw [show List.filter (weekQualifying TROPHY_START_DATE (TROPHY_START_DATE + WEEK)) wActs
      = [actA1, actA2, actB, actC] from by decide]
  rw [show List.filter (fun r => r.user_id == (2 : Int)) [actA1, actA2, actB, actC]
      = [actB] from by decide]
  rw [show List.map (fun r => r.distance) [actB] = [(8000 : Rat)] from by decide]
  norm_num

theorem wActs_total_3 :
    weeklyTotal wActs TROPHY_START_DATE (TROPHY_START_DATE + WEEK) 3 = 1000 := by
  unfold weeklyTotal
  rw [show List.filter (weekQualifying TROPHY_START_DATE (TROPHY_START_DATE + WEEK)) wActs
      = [actA1, actA2, actB, actC] from by decide]
  rw [show List.filter (fun r => r.user_id == (3 : Int)) [actA1, actA2, actB, actC]
      = [actC] from by decide]
  rw [show List.map (fun r => r.distance) [actC] = [(1000 : Rat)] from by decide]
  norm_num

theorem wActs_total_other (v : Int) (h1 : v ≠ 1) (h2 : v ≠ 2) (h3 : v ≠ 3) :
    weeklyTotal wActs TROPHY_START_DATE (TROPHY_START_DATE + WEEK) v = 0 := by
  unfold weeklyTotal
  rw [show List.filter (weekQualifying TROPHY_START_DATE (TROPHY_START_DATE + WEEK)) wActs
      = [actA1, actA2, actB, actC] from by decide]
  rw [show List.filter (fun r => r.user_id == v) [actA1, actA2, actB, actC] = [] from ?_]
  · simp
  · rw [List.filter_eq_nil_iff]
    intro r hr hru
    have hv := beq_iff_eq.mp hru
    fin_cases hr
    · exact h1 (by rw [← hv]; rfl)
    · exact h1 (by rw [← hv]; rfl)
    · exact h2 (by rw [← hv]; rfl)
    · exact h3 (by rw [← hv]; rfl)

theorem wActs_max_le (u : Int) (hu : u = 1 ∨ u = 2) (v : Int) :
    weeklyTotal wActs TROPHY_START_DATE (TROPHY_START_DATE + WEEK) v
      ≤ weeklyTotal wActs TROPHY_START_DATE (TROPHY_START_DATE + WEEK) u := by
  have hu8 : weeklyTotal wActs TROPHY_START_DATE (TROPHY_START_DATE + WEEK) u = 8000 := by
    rcases hu with rfl | rfl
    · exact wActs_total_1
    · exact wActs_total_2
  rw [hu8]
  by_cases h1 : v = 1
  · rw [h1, wActs_total_1]
  · by_cases h2 : v = 2
    · rw [h2, wActs_total_2]
    · by_cases h3 : v = 3
      · rw [h3, wActs_total_3]; norm_num
      · rw [wActs_total_other v h1 h2 h3]; norm_num

/-- Witness for the amended winner selection: the week with users 1 and 2
tied at 8000 (user 1's 20000 only_me activity excluded) and user 3 at 1000
awards trophies to both tied users and none to user 3. -/
theorem trophy_winner_selection_witness :
    (∃ t ∈ (processWeek (TROPHY_START_DATE + 2 * WEEK) wActs ([], initialTrophyStats)
        TROPHY_START_DATE).1, t.user_id = 1 ∧ t.week_start = TROPHY_START_DATE) ∧
    (∃ t ∈ (processWeek (TROPHY_START_DATE + 2 * WEEK) wActs ([], initialTrophyStats)
        TROPHY_START_DATE).1, t.user_id = 2 ∧ t.week_start = TROPHY_START_DATE) ∧
    (∀ t ∈ (processWeek (TROPHY_START_DATE + 2 * WEEK) wActs ([], initialTrophyStats)
        TROPHY_START_DATE).1, t.week_start = TROPHY_START_DATE → t.user_id ≠ 3) := by
  refine ⟨?_, ?_, ?_⟩
  · exact (trophy_winner_selection (TROPHY_START_DATE + 2 * WEEK) wActs
        ([], initialTrophyStats) TROPHY_START_DATE 1 (by decide) (by decide)).1
      (by rw [wActs_total_1]; norm_num) (wActs_max_le 1 (Or.inl rfl))
  · exact (trophy_winner_selection (TROPHY_START_DATE + 2 * WEEK) wActs
        ([], initialTrophyStats) TROPHY_START_DATE 2 (by decide) (by decide)).1
      (by rw [wActs_total_2]; norm_num) (wActs_max_le 2 (Or.inr rfl))
  · exact (trophy_winner_selection (TROPHY_START_DATE + 2 * WEEK) wActs
        ([], initialTrophyStats) TROPHY_START_DATE 3 (by decide) (by decide)).2
      ⟨1, by rw [wActs_total_3, wActs_total_1]; norm_num⟩

theorem kudosRowFor_drop (a : ActivityRow) (acts : List ActivityRow)
    (qual : ActivityRow → Bool) (hqa : qual a = false) :
    kudosRowFor (a :: acts) qual = kudosRowFor acts qual := by
  funext u
  unfold kudosRowFor
  rw [show List.filter (fun r => r.user_id == u.id && qual r) (a :: acts)
      = List.filter (fun r => r.user_id == u.id && qual r) acts from by
    simp [List.filter_cons, hqa]]

/-- C6: an activity whose visibility is only_me contributes nothing — to the
per-user weekly distance totals and grouped weekly results used for
trophies, to the current week's kudos leaderboard, and to the all-time kudos
leaderboard — no matter how large its distance or kudos count. -/
theorem only_me_excluded (a : ActivityRow) (hvis : a.visibility = "only_me") :
    (∀ (acts : List ActivityRow) (ws we : DateTime) (uid : Int),
      weeklyTotal (a :: acts) ws we uid = weeklyTotal acts ws we uid) ∧
    (∀ (acts : List ActivityRow) (ws we : DateTime),
      weekly_results (a :: acts) ws we = weekly_results acts ws we) ∧
    (∀ (now : DateTime) (users : List User) (acts : List ActivityRow),
      get_weekly_kudos_leaderboard now users (a :: acts)
        = get_weekly_kudos_leaderboard now users acts) ∧
    (∀ (users : List User) (acts : List ActivityRow),
      get_alltime_kudos_leaderboard users (a :: acts)
        = get_alltime_kudos_leaderboard users acts) := by
  have hq : ∀ ws we, weekQualifying ws we a = false := by
    intro ws we
    unfold weekQualifying
    rw [hvis]
    simp
  have hkw : ∀ now, kudosWeekQualifying now a = false := by
    intro now
    unfold kudosWeekQualifying
    rw [hvis]
    simp
  have hka : kudosAllTimeQualifying a = false := by
    unfold kudosAllTimeQualifying
    rw [hvis]
    simp
  refine ⟨?_, ?_, ?_, ?_⟩
  · intro acts ws we uid
    unfold weeklyTotal
    rw [show List.filter (weekQualifying ws we) (a :: acts)
        = List.filter (weekQualifying ws we) acts from by simp [List.filter_cons, hq ws we]]
  · intro acts ws we
    unfold weekly_results weeklyUserIds weeklyTotal weeklyCount
    rw [show List.filter (weekQualifying ws we) (a :: acts)
        = List.filter (weekQualifying ws we) acts from by simp [List.filter_cons, hq ws we]]
  · intro now users acts
    unfold get_weekly_kudos_leaderboard kudosBoard
    rw [kudosRowFor_drop a acts (kudosWeekQualifying now) (hkw now)]
  · intro users acts
    unfold get_alltime_kudos_leaderboard kudosBoard
    rw [kudosRowFor_drop a acts kudosAllTimeQualifying hka]

/-- Witness: the 20000 m, 50-kudos only_me activity changes none of the
derived views, over concrete data. -/
theorem only_me_excluded_witness :
    (weeklyTotal (actA3 :: [actB]) TROPHY_START_DATE (TROPHY_START_DATE + WEEK) 1
      = weeklyTotal [actB] TROPHY_START_DATE (TROPHY_START_DATE + WEEK) 1) ∧
    (weekly_results (actA3 :: [actB]) TROPHY_START_DATE (TROPHY_START_DATE + WEEK)
      = weekly_results [actB] TROPHY_START_DATE (TROPHY_START_DATE + WEEK)) ∧
    (get_weekly_kudos_leaderboard TROPHY_START_DATE [wUser] (actA3 :: [actB])
      = get_weekly_kudos_leaderboard TROPHY_START_DATE [wUser] [actB]) ∧
    (get_alltime_kudos_leaderboard [wUser] (actA3 :: [actB])
      = get_alltime_kudos_leaderboard [wUser] [actB]) := by
  refine ⟨?_, ?_, ?_, ?_⟩
  · exact (only_me_excluded actA3 rfl).1 [actB] TROPHY_START_DATE
      (TROPHY_START_DATE + WEEK) 1
  · exact (only_me_excluded actA3 rfl).2.1 [actB] TROPHY_START_DATE
      (TROPHY_START_DATE + WEEK)
  · exact (only_me_excluded actA3 rfl).2.2.1 TROPHY_START_DATE [wUser] [actB]
  · exact (only_me_excluded actA3 rfl).2.2.2 [wUser] [actB]

theorem rowUpdate_segments_fetched (uid aid : Int) (a : ActivityJson) (r : ActivityRow) :
    (rowUpdate uid aid a r).segments_fetched = r.segments_fetched := by
  unfold rowUpdate; split <;> rfl

/-- save_activities never changes the enrichment flag of a stored row: the
update statement does not name the column, and inserts only append. -/
theorem save_flag_preserved (uid : Int) :
    ∀ (acts : List ActivityJson) (db : List ActivityRow) (c : Int) (i : Nat),
      i < db.length →
      ((acts.foldl (processActivity uid) (db, c)).1[i]?.map fun r => r.segments_fetched)
        = db[i]?.map fun r => r.segments_fetched := by
  intro acts
  induction acts with
  | nil => intro db c i _; rfl
  | cons a t ih =>
    intro db c i h
    rw [List.foldl_cons]
    cases hid : a.id with
    | none =>
      have hstep : processActivity uid (db, c) a = (db, c) := by
        unfold processActivity; rw [hid]
      rw [hstep]
      exact ih db c i h
    | some aid =>
      by_cases hp : keyPresent uid aid db = true
      · have hstep : processActivity uid (db, c) a = (db.map (rowUpdate uid aid a), c) := by
          unfold processActivity; rw [hid]; simp [hp]
        rw [hstep, ih _ c i (by rw [List.length_map]; exact h), List.getElem?_map,
          Option.map_map]
        cases db[i]? <;> simp [rowUpdate_segments_fetched]
      · have hstep : processActivity uid (db, c) a
            = (db ++ [extractRow uid a aid], c + 1) := by
          unfold processActivity; rw [hid]; simp [hp]
        rw [hstep, ih _ (c + 1) i (by simp; omega), List.getElem?_append, if_pos h]

theorem mem_insertByStartDesc {b r : ActivityRow} :
    ∀ {l : List ActivityRow}, b ∈ insertByStartDesc r l ↔ b = r ∨ b ∈ l := by
  intro l
  induction l with
  | nil => simp [insertByStartDesc]
  | cons x xs ih =>
    unfold insertByStartDesc
    by_cases hc : x.start_date ≤ r.start_date
    · rw [if_pos hc]
      simp [or_comm, or_assoc, or_left_comm]
    · rw [if_neg hc]
      simp only [List.mem_cons, ih]
      tauto

theorem mem_sortByStartDesc {b : ActivityRow} :
    ∀ {l : List ActivityRow}, b ∈ sortByStartDesc l ↔ b ∈ l := by
  intro l
  induction l with
  | nil => simp [sortByStartDesc]
  | cons x xs ih =>
    show b ∈ insertByStartDesc x (sortByStartDesc xs) ↔ _
    rw [mem_insertByStartDesc, ih]
    simp

/-- Every id the segments pass selects belongs to a stored activity of the
user whose enrichment flag is still false. -/
theorem pendingSegmentIds_spec (uid : Int) (lim : Nat) (acts : List ActivityRow) :
    ∀ aid ∈ pendingSegmentIds uid lim acts,
      ∃ r ∈ acts, r.user_id = uid ∧ r.activity_id = aid ∧
        r.segments_fetched = false := by
  intro aid h
  unfold pendingSegmentIds at h
  obtain ⟨r, hr, hra⟩ := List.mem_map.mp (List.mem_of_mem_take h)
  rw [mem_sortByStartDesc] at hr
  obtain ⟨hmem, hcond⟩ := List.mem_filter.mp hr
  obtain ⟨hu, hf⟩ := Bool.and_eq_true_iff.mp hcond
  exact ⟨r, hmem, beq_iff_eq.mp hu, hra, beq_iff_eq.mp hf⟩

/-- The activities component of the segments fold: the stored table with the
flag set exactly on the processed ids whose detail fetch succeeded. -/
theorem foldSeg_activities (now : DateTime) (uid : Int)
    (detail : Int → Option (List EffortJson)) :
    ∀ (ids : List Int) (st : SegmentsState × Nat),
      (ids.foldl (processSegmentActivity now uid detail) st).1.activities
        = st.1.activities.map fun r =>
            if r.user_id == uid &&
                (ids.filter fun aid => (detail aid).isSome).contains r.activity_id then
              { r with segments_fetched := true }
            else r := by
  intro ids
  induction ids with
  | nil =>
    intro st
    rw [List.foldl_nil, List.filter_nil]
    exact (list_map_id_of_fix _ _ fun r _ => by simp).symm
  | cons aid rest ih =>
    intro st
    rw [List.foldl_cons]
    cases hd : detail aid with
    | none =>
      have hstep : processSegmentActivity now uid detail st aid = st := by
        unfold processSegmentActivity; rw [hd]
      rw [hstep, ih st,
        show (List.filter (fun a2 => (detail a2).isSome) (aid :: rest))
          = List.filter (fun a2 => (detail a2).isSome) rest from by
            simp [List.filter_cons, hd]]
    | some efforts =>
      have hstep : (processSegmentActivity now uid detail st aid).1.activities
          = setSegmentsFetched uid aid st.1.activities := by
        unfold processSegmentActivity; rw [hd]
      rw [ih (processSegmentActivity now uid detail st aid), hstep]
      unfold setSegmentsFetched
      rw [List.map_map,
        show (List.filter (fun a2 => (detail a2).isSome) (aid :: rest))
          = aid :: List.filter (fun a2 => (detail a2).isSome) rest from by
            simp [List.filter_cons, hd]]
      congr 1
      funext r
      rw [Function.comp_apply]
      by_cases hu : (r.user_id == uid) = true
      · by_cases hk : (r.activity_id == aid) = true
        · have heq : r.activity_id = aid := beq_iff_eq.mp hk
          simp [hu, hk, List.contains_cons, heq]
        · have hne : r.activity_id ≠ aid := fun hh => hk (beq_iff_eq.mpr hh)
          simp [hu, hk, List.contains_cons, hne]
      · simp [hu]

theorem flag_true_of_map {f : ActivityRow → ActivityRow}
    (hf : ∀ r, r.segments_fetched = true → (f r).segments_fetched = true)
    (l : List ActivityRow) (i : Nat)
    (h : (l[i]?.map fun r => r.segments_fetched) = some true) :
    ((l.map f)[i]?.map fun r => r.segments_fetched) = some true := by
  rw [List.getElem?_map]
  cases hsome : l[i]? with
  | none => rw [hsome] at h; exact Option.noConfusion h
  | some r =>
    rw [hsome] at h
    have hr : r.segments_fetched = true := by simpa using h
    simpa using hf r hr

/-- C8: a segments pass sets the enrichment flag exactly on the selected
activities whose detail fetch succeeded — a fetch returning zero efforts
included — and leaves it untouched (so still false) when the fetch failed;
only flag-false activities are ever selected; and neither a segments pass
nor save_activities ever turns a true flag back to false. -/
theorem segments_flag_policy (now : DateTime) (uid : Int)
    (detail : Int → Option (List EffortJson)) (lim : Nat) (st : SegmentsState) :
    ((sync_segments_for_user now uid detail lim st).1.activities
      = st.activities.map fun r =>
          if r.user_id == uid &&
              ((pendingSegmentIds uid lim st.activities).filter
                fun aid => (detail aid).isSome).contains r.activity_id then
            { r with segments_fetched := true }
          else r) ∧
    (∀ aid ∈ pendingSegmentIds uid lim st.activities,
      ∃ r ∈ st.activities, r.user_id = uid ∧ r.activity_id = aid ∧
        r.segments_fetched = false) ∧
    (∀ i : Nat,
      (st.activities[i]?.map fun r => r.segments_fetched) = some true →
      ((sync_segments_for_user now uid detail lim st).1.activities[i]?.map
        fun r => r.segments_fetched) = some true) ∧
    (∀ (acts : List ActivityJson) (db : List ActivityRow) (i : Nat), i < db.length →
      ((save_activities uid acts db).1[i]?.map fun r => r.segments_fetched)
        = db[i]?.map fun r => r.segments_fetched) := by
  have hchar : (sync_segments_for_user now uid detail lim st).1.activities
      = st.activities.map fun r =>
          if r.user_id == uid &&
              ((pendingSegmentIds uid lim st.activities).filter
                fun aid => (detail aid).isSome).contains r.activity_id then
            { r with segments_fetched := true }
          else r :=
    foldSeg_activities now uid detail (pendingSegmentIds uid lim st.activities) (st, 0)
  refine ⟨hchar, pendingSegmentIds_spec uid lim st.activities, ?_, ?_⟩
  · intro i hflag
    rw [hchar]
    refine flag_true_of_map ?_ st.activities i hflag
    intro r hr
    dsimp only
    split
    · rfl
    · exact hr
  · intro acts db i h
    exact save_flag_preserved uid acts db 0 i h

/-- An already-enriched activity of user 5. -/
def segRowDone : ActivityRow :=
  { user_id := 5, activity_id := 502, name := "d", type := "Run",
    start_date := 2000, distance := 1, moving_time := 0, elapsed_time := 0,
    total_elevation_gain := 0, average_speed := 0, max_speed := 0,
    average_heartrate := none, max_heartrate := none, calories := none,
    kudos_count := 0, visibility := "everyone", start_lat := none, start_lng := none,
    segments_fetched := true }

/-- A not-yet-enriched activity of user 5. -/
def segRowPending : ActivityRow :=
  { user_id := 5, activity_id := 501, name := "p", type := "Run",
    start_date := 1000, distance := 1, moving_time := 0, elapsed_time := 0,
    total_elevation_gain := 0, average_speed := 0, max_speed := 0,
    average_heartrate := none, max_heartrate := none, calories := none,
    kudos_count := 0, visibility := "everyone", start_lat := none, start_lng := none,
    segments_fetched := false }

def wSegState : SegmentsState :=
  { activities := [segRowDone, segRowPending], segments := [], segment_efforts := [] }

/-- A detail oracle succeeding with zero efforts on activity 501 and failing
elsewhere. -/
def detailW : Int → Option (List EffortJson) :=
  fun aid => if aid = 501 then some [] else none

/-- Witness for the flag policy on concrete data: the pending activity is
selected from flag-false rows, the already-true flag survives the pass, and
save_activities keeps the flag. -/
theorem segments_flag_policy_witness :
    (∃ r ∈ wSegState.activities, r.user_id = 5 ∧ r.activity_id = 501 ∧
        r.segments_fetched = false) ∧
    (((sync_segments_for_user 0 5 detailW 10 wSegState).1.activities[0]?.map
        fun r => r.segments_fetched) = some true) ∧
    (((save_activities 5 [] [segRowDone]).1[0]?.map fun r => r.segments_fetched)
        = [segRowDone][0]?.map fun r => r.segments_fetched) := by
  refine ⟨?_, ?_, ?_⟩
  · exact (segments_flag_policy 0 5 detailW 10 wSegState).2.1 501 (by decide)
  · exact (segments_flag_policy 0 5 detailW 10 wSegState).2.2.1 0 (by decide)
  · exact (segments_flag_policy 0 5 detailW 10 wSegState).2.2.2 [] [segRowDone] 0
      (by decide)

theorem le_foldl_max : ∀ (ds : List Int) (d : Int),
    d ≤ ds.foldl max d ∧ ∀ x ∈ ds, x ≤ ds.foldl max d := by
  intro ds
  induction ds with
  | nil =>
    intro d
    exact ⟨le_refl d, fun x hx => absurd hx (List.not_mem_nil x)⟩
  | cons y ys ih =>
    intro d
    rw [List.foldl_cons]
    obtain ⟨h1, h2⟩ := ih (max d y)
    refine ⟨le_trans (le_max_left d y) h1, ?_⟩
    intro x hx
    rcases List.mem_cons.mp hx with rfl | hx
    · exact le_trans (le_max_right d x) h1
    · exact h2 x hx

theorem foldl_max_mem : ∀ (ds : List Int) (d : Int),
    ds.foldl max d = d ∨ ds.foldl max d ∈ ds := by
  intro ds
  induction ds with
  | nil => intro d; exact Or.inl rfl
  | cons y ys ih =>
    intro d
    rw [List.foldl_cons]
    rcases ih (max d y) with h | h
    · rcases max_choice d y with hm | hm
      · exact Or.inl (by rw [h, hm])
      · refine Or.inr ?_
        rw [h, hm]
        exact List.mem_cons_self _ _
    · exact Or.inr (List.mem_cons_of_mem _ h)

/-- C9: when the user's stored activities have maximum start timestamp T,
the parameters built for the next sync's outbound activity-list request
carry after = T (its integer epoch — the identity in the epoch model);
with no stored activity, no after parameter is sent. -/
theorem watermark_correctness (uid : Int) (db : List ActivityRow) :
    (∀ T : DateTime,
      (∀ r ∈ db.filter (fun r => r.user_id == uid), r.start_date ≤ T) →
      (∃ r ∈ db.filter (fun r => r.user_id == uid), r.start_date = T) →
      (initFetchParams 50 (get_last_activity_date uid db)).after = some T) ∧
    (db.filter (fun r => r.user_id == uid) = [] →
      (initFetchParams 50 (get_last_activity_date uid db)).after = none) := by
  constructor
  · intro T hub hmem
    show get_last_activity_date uid db = some T
    unfold get_last_activity_date
    cases hf : (db.filter fun r => r.user_id == uid).map (fun r => r.start_date) with
    | nil =>
      obtain ⟨r, hr, _⟩ := hmem
      have hx : r.start_date ∈ (db.filter fun r => r.user_id == uid).map
          (fun r => r.start_date) := List.mem_map_of_mem _ hr
      rw [hf] at hx
      exact absurd hx (List.not_mem_nil _)
    | cons d ds =>
      show some (ds.foldl max d) = some T
      have hmem_all : ∀ x ∈ (d :: ds : List Int), x ≤ T := by
        intro x hx
        have hx2 : x ∈ (db.filter fun r => r.user_id == uid).map
            (fun r => r.start_date) := by rw [hf]; exact hx
        obtain ⟨r, hr, hrx⟩ := List.mem_map.mp hx2
        rw [← hrx]
        exact hub r hr
      have hle := le_foldl_max ds d
      have hmax_le_T : ds.foldl max d ≤ T := by
        rcases foldl_max_mem ds d with h | h
        · rw [h]; exact hmem_all d (List.mem_cons_self _ _)
        · exact hmem_all _ (List.mem_cons_of_mem _ h)
      have hT_le : T ≤ ds.foldl max d := by
        obtain ⟨r, hr, hrT⟩ := hmem
        have hmm : r.start_date ∈ (d :: ds : List Int) := by
          rw [← hf]
          exact List.mem_map_of_mem _ hr
        rcases List.mem_cons.mp hmm with he | he
        · rw [← hrT, he]; exact hle.1
        · rw [← hrT]; exact hle.2 _ he
      exact congrArg some (le_antisymm hmax_le_T hT_le)
  · intro h
    show get_last_activity_date uid db = none
    unfold get_last_activity_date
    rw [h]
    rfl

def wmRow1 : ActivityRow :=
  { user_id := 7, activity_id := 701, name := "w1", type := "Run",
    start_date := 100, distance := 1, moving_time := 0, elapsed_time := 0,
    total_elevation_gain := 0, average_speed := 0, max_speed := 0,
    average_heartrate := none, max_heartrate := none, calories := none,
    kudos_count := 0, visibility := "everyone", start_lat := none, start_lng := none,
    segments_fetched := false }

def wmRow2 : ActivityRow :=
  { user_id := 7, activity_id := 702, name := "w2", type := "Run",
    start_date := 200, distance := 1, moving_time := 0, elapsed_time := 0,
    total_elevation_gain := 0, average_speed := 0, max_speed := 0,
    average_heartrate := none, max_heartrate := none, calories := none,
    kudos_count := 0, visibility := "everyone", start_lat := none, start_lng := none,
    segments_fetched := false }

/-- Witness for the watermark: a user with activities at epochs 100 and 200
yields after = 200; a user with no stored activity yields no after. -/
theorem watermark_correctness_witness :
    (initFetchParams 50 (get_last_activity_date 7 [wmRow1, wmRow2])).after = some 200 ∧
    (initFetchParams 50 (get_last_activity_date 8 [wmRow1, wmRow2])).after = none := by
  constructor
  · exact (watermark_correctness 7 [wmRow1, wmRow2]).1 200 (by decide) (by decide)
  · exact (watermark_correctness 8 [wmRow1, wmRow2]).2 (by decide)

end StravaViz
